import Mathlib

/-!
Shallow embedding of the `vmdl` crate (a parser for Valve Source-engine
model files: `.mdl`, `.vvd`, `.dx90.vtx`) and proofs about it.

Conventions used throughout:

* A byte buffer (`&[u8]` in the source) is a `List (Fin 256)`.
* Machine integers are modelled as `Nat`/`Int`; wrapping arithmetic is
  written with an explicit `% 2^w` and i32 saturation with `max`/`min`.
* Runtime `f32` scalars that the source stores verbatim from the wire are
  kept as their raw 32-bit patterns (`Nat`); where the source performs
  float arithmetic, the arithmetic is modelled exactly over `ℚ`
  (every concrete input used in a theorem below makes the corresponding
  IEEE-754 single-precision computation exact, so the model and the
  machine agree at those inputs).  `f32::sqrt` is modelled by `ratSqrt`,
  which is exact whenever argument and result are exactly representable
  (IEEE sqrt is correctly rounded, hence exact there as well); the sine
  and cosine used by the Euler-to-quaternion conversion are abstracted as
  function parameters since no claim depends on their values.
* Fallible Rust code returning `Result<T, ModelError>` becomes
  `Except ModelError`; code that can additionally `panic!`/`todo!` (the
  MDL reader) returns `PResult`.
-/

namespace Vmdl

/-! ## Byte-level primitives (src/lib.rs) -/

/-- A byte of input data. -/
abbrev Byte := Fin 256

/-- A borrowed byte slice `&[u8]`. -/
abbrev Bytes := List Byte

/-- Read the byte at position `i`, defaulting to `0` out of range.  Every
use below is guarded by an explicit length check mirroring the bounds
checks of the source. -/
def byteD (d : Bytes) (i : Nat) : Nat :=
  (d.getD i 0).val

/-- The sub-slice `&d[off..off+n]`, as used by `pod_read_unaligned`
(`Readable::read` first takes `data.get(0..size_of::<Self>())`). -/
def chunk (d : Bytes) (off n : Nat) : Bytes :=
  (d.drop off).take n

/-- Little-endian 16-bit read from a chunk. -/
def u16le (c : Bytes) (i : Nat) : Nat :=
  byteD c i + 2 ^ 8 * byteD c (i + 1)

/-- Little-endian 32-bit read from a chunk. -/
def u32le (c : Bytes) (i : Nat) : Nat :=
  byteD c i + 2 ^ 8 * byteD c (i + 1) + 2 ^ 16 * byteD c (i + 2) + 2 ^ 24 * byteD c (i + 3)

/-- Little-endian 64-bit read from a chunk. -/
def u64le (c : Bytes) (i : Nat) : Nat :=
  u32le c i + 2 ^ 32 * u32le c (i + 4)

/-- Reinterpret a `u32` bit pattern as an `i32` value. -/
def toI32 (n : Nat) : Int :=
  if n % 2 ^ 32 < 2 ^ 31 then ((n % 2 ^ 32 : Nat) : Int) else ((n % 2 ^ 32 : Nat) : Int) - 2 ^ 32

/-- Reinterpret a `u16` bit pattern as an `i16` value. -/
def toI16 (n : Nat) : Int :=
  if n % 2 ^ 16 < 2 ^ 15 then ((n % 2 ^ 16 : Nat) : Int) else ((n % 2 ^ 16 : Nat) : Int) - 2 ^ 16

/-- Little-endian `i32` read from a chunk. -/
def i32le (c : Bytes) (i : Nat) : Int := toI32 (u32le c i)

/-- Little-endian `i16` read from a chunk. -/
def i16le (c : Bytes) (i : Nat) : Int := toI16 (u16le c i)

/-- An `as usize` cast of an `i32`/`isize` value (64-bit target, two's
complement wrap). -/
def usizeOfInt (n : Int) : Nat :=
  (n % 2 ^ 64).toNat

/-- Helper for building concrete test inputs: a run of zero bytes. -/
def zeros (n : Nat) : Bytes := List.replicate n 0

/-- Helper for building concrete test inputs: a single byte. -/
def bqq (n : Nat) : Byte := ⟨n % 256, Nat.mod_lt _ (by norm_num)⟩

/-- Helper for building concrete test inputs: a little-endian 16-bit
value. -/
def le16 (n : Nat) : Bytes := [bqq n, bqq (n / 256)]

/-- Helper for building concrete test inputs: a little-endian 32-bit
value. -/
def le32 (n : Nat) : Bytes := [bqq n, bqq (n / 256), bqq (n / 65536), bqq (n / 16777216)]

/-- Saturating `i32` addition (`i32::saturating_add`). -/
def satAddI32 (a b : Int) : Int :=
  max (-(2 ^ 31)) (min (2 ^ 31 - 1) (a + b))

/-- Wrapping (release-mode) `i32` addition. -/
def wrapAddI32 (a b : Int) : Int :=
  (a + b + 2 ^ 31) % 2 ^ 32 - 2 ^ 31

/-- Wrapping (release-mode) `i32` multiplication. -/
def wrapMulI32 (a b : Int) : Int :=
  (a * b + 2 ^ 31) % 2 ^ 32 - 2 ^ 31

/-- Truncating `i32` division (Rust `/` rounds toward zero). -/
def tdivI32 (a b : Int) : Int := Int.tdiv a b

/-! ## Error model (src/error.rs) -/

/-- `StringError` (src/error.rs). -/
inductive StringError where
  | nonUTF8 : StringError
  | notNullTerminated : StringError
deriving DecidableEq, Repr

/-- `ModelError` (src/error.rs).  The `io` variant also stands in for the
`binrw` decode errors of the VTX reader, which the source converts into
its error type the same way. -/
inductive ModelError where
  | io : ModelError
  | string : StringError → ModelError
  | outOfBounds : (data : String) → (offset : Nat) → ModelError
  | eof : (needed : Nat) → ModelError
deriving DecidableEq, Repr

/-- Outcome of Rust code that may return, error, or panic (used for the
MDL reader, whose `AnimationDescription::read` contains a `todo!`). -/
inductive PResult (α : Type) where
  | ok : α → PResult α
  | err : ModelError → PResult α
  | panicked : PResult α
deriving DecidableEq, Repr

namespace PResult

def bind {α β : Type} : PResult α → (α → PResult β) → PResult β
  | .ok a, f => f a
  | .err e, _ => .err e
  | .panicked, _ => .panicked

instance : Monad PResult where
  pure := .ok
  bind := bind

/-- Lift a `Result`/`Except` value (the `?` operator on non-panicking
sub-parsers). -/
def lift {α : Type} : Except ModelError α → PResult α
  | .ok a => .ok a
  | .error e => .err e

def toOption {α : Type} : PResult α → Option α
  | .ok a => some a
  | _ => none

/-- Whether the computation panicked. -/
def isPanicked {α : Type} : PResult α → Bool
  | .panicked => true
  | _ => false

def map {α β : Type} (f : α → β) : PResult α → PResult β
  | .ok a => .ok (f a)
  | .err e => .err e
  | .panicked => .panicked

end PResult

@[simp] theorem PResult.bind_ok {α β : Type} (a : α) (f : α → PResult β) :
    PResult.bind (.ok a) f = f a := rfl

@[simp] theorem PResult.bind_err {α β : Type} (e : ModelError) (f : α → PResult β) :
    PResult.bind (.err e) f = .err e := rfl

/-! ## Generic offset walking and record reading (src/lib.rs)

`index_range(index, count, size)` yields `count` offsets
`index as usize + i * size` (all `usize` arithmetic wraps mod `2^64` in
release builds, which is made explicit here). -/

/-- `index_range` (src/lib.rs). -/
def indexRange (index count : Int) (size : Nat) : List Nat :=
  (List.range (usizeOfInt count)).map
    (fun i => (usizeOfInt index + i * size % 2 ^ 64) % 2 ^ 64)

/-- Read a fixed-size POD record: `data.get(off..)` (else `OutOfBounds`)
followed by `Readable::read`, i.e. `data.get(0..size)` (else `Eof(size)`)
and an unaligned reinterpretation of those `size` bytes. -/
def readPod {α : Type} (name : String) (size : Nat) (ofBytes : Bytes → α)
    (d : Bytes) (off : Nat) : Except ModelError α :=
  if off ≤ d.length then
    if off + size ≤ d.length then .ok (ofBytes (chunk d off size))
    else .error (.eof size)
  else .error (.outOfBounds name off)

/-- `read_relative` / collecting `read_relative_iter` over a list of
offsets. -/
def readRelativeList {α : Type} (read1 : Nat → Except ModelError α) :
    List Nat → Except ModelError (List α)
  | [] => .ok []
  | o :: rest => do
    let a ← read1 o
    let as ← readRelativeList read1 rest
    .ok (a :: as)

/-- `PResult` variant of `readRelativeList` for sub-parsers that may
panic. -/
def readRelativeListP {α : Type} (read1 : Nat → PResult α) :
    List Nat → PResult (List α)
  | [] => .ok []
  | o :: rest => do
    let a ← read1 o
    let as ← readRelativeListP read1 rest
    .ok (a :: as)

/-! ## Strings

Rust `String`s produced by the parser are modelled as their UTF-8 byte
content (validated, with `\` already replaced by `/` where the source
does so). -/

/-- UTF-8 validity of a byte sequence, following RFC 3629 exactly as
`String::from_utf8` checks it. -/
def validUtf8 : List Nat → Bool
  | [] => true
  | b :: rest =>
    if b < 0x80 then validUtf8 rest
    else if 0xC2 ≤ b ∧ b ≤ 0xDF then
      match rest with
      | c1 :: rest1 => decide (0x80 ≤ c1 ∧ c1 ≤ 0xBF) && validUtf8 rest1
      | [] => false
    else if b = 0xE0 then
      match rest with
      | c1 :: c2 :: rest2 =>
        decide (0xA0 ≤ c1 ∧ c1 ≤ 0xBF) && decide (0x80 ≤ c2 ∧ c2 ≤ 0xBF) && validUtf8 rest2
      | _ => false
    else if (0xE1 ≤ b ∧ b ≤ 0xEC) ∨ b = 0xEE ∨ b = 0xEF then
      match rest with
      | c1 :: c2 :: rest2 =>
        decide (0x80 ≤ c1 ∧ c1 ≤ 0xBF) && decide (0x80 ≤ c2 ∧ c2 ≤ 0xBF) && validUtf8 rest2
      | _ => false
    else if b = 0xED then
      match rest with
      | c1 :: c2 :: rest2 =>
        decide (0x80 ≤ c1 ∧ c1 ≤ 0x9F) && decide (0x80 ≤ c2 ∧ c2 ≤ 0xBF) && validUtf8 rest2
      | _ => false
    else if b = 0xF0 then
      match rest with
      | c1 :: c2 :: c3 :: rest3 =>
        decide (0x90 ≤ c1 ∧ c1 ≤ 0xBF) && decide (0x80 ≤ c2 ∧ c2 ≤ 0xBF) &&
          decide (0x80 ≤ c3 ∧ c3 ≤ 0xBF) && validUtf8 rest3
      | _ => false
    else if 0xF1 ≤ b ∧ b ≤ 0xF3 then
      match rest with
      | c1 :: c2 :: c3 :: rest3 =>
        decide (0x80 ≤ c1 ∧ c1 ≤ 0xBF) && decide (0x80 ≤ c2 ∧ c2 ≤ 0xBF) &&
          decide (0x80 ≤ c3 ∧ c3 ≤ 0xBF) && validUtf8 rest3
      | _ => false
    else if b = 0xF4 then
      match rest with
      | c1 :: c2 :: c3 :: rest3 =>
        decide (0x80 ≤ c1 ∧ c1 ≤ 0x8F) && decide (0x80 ≤ c2 ∧ c2 ≤ 0xBF) &&
          decide (0x80 ≤ c3 ∧ c3 ≤ 0xBF) && validUtf8 rest3
      | _ => false
    else false

/-- A parsed Rust `String` (its UTF-8 bytes). -/
abbrev RStr := List Nat

/-- `<String as ReadRelative>::read`: take bytes up to the first NUL and
UTF-8-validate them. -/
def stringRead (d : Bytes) : Except ModelError RStr :=
  let bs := (d.map Fin.val).takeWhile (fun b => b ≠ 0)
  if validUtf8 bs then .ok bs else .error (.string .nonUTF8)

/-- `read_single::<String>(data, index)`: `index.try_into()` (negative →
`OutOfBounds` at `usize::MAX`), then `data.get(index..)` and
`String::read`. -/
def readCString (d : Bytes) (index : Int) : Except ModelError RStr :=
  if index < 0 then .error (.outOfBounds "String" (2 ^ 64 - 1))
  else if usizeOfInt index ≤ d.length then stringRead (d.drop (usizeOfInt index))
  else .error (.outOfBounds "String" (usizeOfInt index))

/-- String read from `data.get(i..).unwrap_or_default()` (used by
`TextureInfo`, attachments, hit-box sets: out-of-range offsets yield the
empty slice instead of an error). -/
def stringAtOrEmpty (d : Bytes) (index : Int) : Except ModelError RStr :=
  stringRead (d.drop (usizeOfInt index))

/-- `str::replace('\\', "/")` at the byte level. -/
def replaceBackslashes (s : RStr) : RStr :=
  s.map (fun b => if b = 92 then 47 else b)

/-- `FixedString::<N>::try_from`: find the first NUL (else
`NotNullTerminated`), UTF-8-validate the bytes before it. -/
def fixedStringOfBytes (buf : List Nat) : Except ModelError RStr :=
  if (buf.filter (fun b => b = 0)).length = 0 then
    .error (.string .notNullTerminated)
  else
    let s := buf.takeWhile (fun b => b ≠ 0)
    if validUtf8 s then .ok s else .error (.string .nonUTF8)

/-! ## Exact models of the float conversions -/

/-- The exact rational value of a finite `f32` bit pattern.  NaN and the
infinities (exponent 255) are mapped to `0`; no input used by any theorem
below contains such a pattern. -/
def f32ToRat (bits : Nat) : ℚ :=
  let b : Nat := bits % 2 ^ 32
  let s : ℚ := if 2 ^ 31 ≤ b then -1 else 1
  let e : Nat := b / 2 ^ 23 % 2 ^ 8
  let m : Nat := b % 2 ^ 23
  if e = 0 then s * (m : ℚ) / 2 ^ 149
  else if e = 255 then 0
  else s * (2 ^ 23 + (m : ℚ)) * 2 ^ e / 2 ^ 150

/-- The exact rational value of a finite `f16` bit pattern (the
`half::f16` → `f32` conversion is exact on finite values).  NaN and the
infinities (exponent 31) are mapped to `0`; no theorem below depends on
them. -/
def halfToRat (bits : Nat) : ℚ :=
  let b : Nat := bits % 2 ^ 16
  let s : ℚ := if 2 ^ 15 ≤ b then -1 else 1
  let e : Nat := b / 2 ^ 10 % 2 ^ 5
  let m : Nat := b % 2 ^ 10
  if e = 0 then s * (m : ℚ) / 2 ^ 24
  else if e = 31 then 0
  else s * (2 ^ 10 + (m : ℚ)) * 2 ^ e / 2 ^ 25

/-- Integer square root by bounded search (the largest `k` with
`k * k ≤ n`).  Used only through `ratSqrt`. -/
def natSqrtLinear (n : Nat) : Nat :=
  ((List.range (n + 1)).filter (fun k => k * k ≤ n)).length - 1

/-- Model of `f32::sqrt` over `ℚ`: exact whenever numerator and
denominator are perfect squares (IEEE sqrt is correctly rounded, hence
also exact there); other values are approximated, and no theorem below
evaluates it outside the exact cases.  Negative arguments (NaN in IEEE)
are mapped to `0` and are unreachable from the decoders below. -/
def ratSqrt (q : ℚ) : ℚ :=
  if q ≤ 0 then 0 else (natSqrtLinear q.num.toNat : ℚ) / (natSqrtLinear q.den : ℚ)

/-! ## Math primitives (src/shared.rs) -/

/-- Runtime `Vector` with exact-rational components. -/
structure Vector where
  x : ℚ
  y : ℚ
  z : ℚ
deriving DecidableEq, Repr

instance : Inhabited Vector := ⟨⟨0, 0, 0⟩⟩

/-- `Vector::default()` (derived `Default`: all zero). -/
def Vector.default : Vector := ⟨0, 0, 0⟩

/-- Runtime `Quaternion` with exact-rational components. -/
structure Quaternion where
  x : ℚ
  y : ℚ
  z : ℚ
  w : ℚ
deriving DecidableEq, Repr

/-- The hand-written `Default` impl for `Quaternion` (src/shared.rs,
lines 104-113): `x: 1.0, y: 0.0, z: 0.0, w: 0.0`. -/
def Quaternion.default : Quaternion := ⟨1, 0, 0, 0⟩

/-- The identity quaternion `(0, 0, 0, 1)` that the specification says
`Quaternion::default` should be. -/
def Quaternion.identity : Quaternion := ⟨0, 0, 0, 1⟩

/-- Hamilton product, as the source computes it through
`cgmath::Quaternion` multiplication (`Mul for Quaternion`,
src/shared.rs lines 145-151). -/
def Quaternion.hmul (a b : Quaternion) : Quaternion :=
  { w := a.w * b.w - (a.x * b.x + a.y * b.y + a.z * b.z)
    x := a.w * b.x + b.w * a.x + (a.y * b.z - a.z * b.y)
    y := a.w * b.y + b.w * a.y + (a.z * b.x - a.x * b.z)
    z := a.w * b.z + b.w * a.z + (a.x * b.y - a.y * b.x) }

/-- Runtime `RadianEuler` with exact-rational components. -/
structure RadianEuler where
  x : ℚ
  y : ℚ
  z : ℚ
deriving DecidableEq, Repr

/-- `RadianEuler::default()` (derived: all zero). -/
def RadianEuler.default : RadianEuler := ⟨0, 0, 0⟩

/-- `From<RadianEuler> for cgmath::Quaternion` followed by the conversion
back into `Quaternion` (src/shared.rs lines 210-235).  The half-angle
sine and cosine are abstracted as `sinF`/`cosF`; the roll angle is
negated before the trig calls exactly as in the source. -/
def eulerToQuat (sinF cosF : ℚ → ℚ) (e : RadianEuler) : Quaternion :=
  let sy := sinF (e.z * (1 / 2)); let cy := cosF (e.z * (1 / 2))
  let sp := sinF (e.y * (1 / 2)); let cp := cosF (e.y * (1 / 2))
  let sr := sinF (-e.x * (1 / 2)); let cr := cosF (-e.x * (1 / 2))
  let srcp := sr * cp; let crsp := cr * sp
  let crcp := cr * cp; let srsp := sr * sp
  { w := crcp * cy + srsp * sy
    x := srcp * cy - crsp * sy
    y := crsp * cy + srcp * sy
    z := crcp * sy - srsp * cy }

/-! ## Compressed scalar codecs (src/compressed_vector.rs) -/

/-- Raw `Vector48`: three `f16` bit patterns. -/
structure Vector48 where
  x : Nat
  y : Nat
  z : Nat
deriving DecidableEq, Repr

/-- `From<Vector48> for Vector`: three half-to-single expansions. -/
def Vector48.toVector (v : Vector48) : Vector :=
  ⟨halfToRat v.x, halfToRat v.y, halfToRat v.z⟩

/-- Raw `Quaternion48`: three `u16` fields. -/
structure Quaternion48 where
  x : Nat
  y : Nat
  z : Nat
deriving DecidableEq, Repr

/-- `calc_w` (src/compressed_vector.rs lines 48-51), exactly as written:
`sqrt(1.0 - ((x * x) - (y * y) - (z * z))) * w_sign`.  Note the
parenthesisation: the radicand is `1 - x² + y² + z²`. -/
def calcW (x y z : ℚ) (wNeg : Bool) : ℚ :=
  let wSign : ℚ := if wNeg then -1 else 1
  ratSqrt (1 - (x * x - y * y - z * z)) * wSign

/-- The w-component the specification prescribes:
`sqrt(max(0, 1 − x² − y² − z²)) × (−1 if sign bit set else +1)`. -/
def specW (x y z : ℚ) (wNeg : Bool) : ℚ :=
  let wSign : ℚ := if wNeg then -1 else 1
  ratSqrt (max 0 (1 - x * x - y * y - z * z)) * wSign

namespace Quaternion48

/-- `Quaternion48::x()`: `(raw − 32768) / 32768` (exact in `f32`). -/
def fx (q : Quaternion48) : ℚ := (((q.x % 2 ^ 16 : Nat) : ℚ) - 32768) / 32768

/-- `Quaternion48::y()`. -/
def fy (q : Quaternion48) : ℚ := (((q.y % 2 ^ 16 : Nat) : ℚ) - 32768) / 32768

/-- `Quaternion48::z()`: low 15 bits, `(raw − 16384) / 16384`. -/
def fz (q : Quaternion48) : ℚ := (((q.z % 2 ^ 15 : Nat) : ℚ) - 16384) / 16384

/-- Whether the w-negative bit (top bit of the z field) is set. -/
def wNeg (q : Quaternion48) : Bool := 2 ^ 15 ≤ q.z % 2 ^ 16

/-- `Quaternion48::w()`: `calc_w` on the decoded fields. -/
def fw (q : Quaternion48) : ℚ := calcW q.fx q.fy q.fz q.wNeg

end Quaternion48

/-- Raw `Quaternion64`: a single 64-bit pattern. -/
structure Quaternion64 where
  bits : Nat
deriving DecidableEq, Repr

namespace Quaternion64

/-- `Quaternion64::val(offset)`: 21-bit field, `(raw − 1048576) /
1048576.5`. -/
def val (q : Quaternion64) (offset : Nat) : ℚ :=
  (((q.bits % 2 ^ 64 / 2 ^ offset % 2 ^ 21 : Nat) : ℚ) - 1048576) / (2097153 / 2)

def fx (q : Quaternion64) : ℚ := q.val 0
def fy (q : Quaternion64) : ℚ := q.val 21
def fz (q : Quaternion64) : ℚ := q.val 42

/-- Whether bit 63 (the w-negative bit) is set. -/
def wNeg (q : Quaternion64) : Bool := 2 ^ 63 ≤ q.bits % 2 ^ 64

/-- `Quaternion64::w()`. -/
def fw (q : Quaternion64) : ℚ := calcW q.fx q.fy q.fz q.wNeg

end Quaternion64

/-- Normalization of a 4-vector (`cgmath`'s `Vector4::normalize`) in the
exact-arithmetic model, used by `From<Quaternion48/64> for Quaternion`. -/
def normalize4 (x y z w : ℚ) : Quaternion :=
  let m := ratSqrt (x * x + y * y + z * z + w * w)
  ⟨x / m, y / m, z / m, w / m⟩

/-- `From<Quaternion48> for Quaternion`. -/
def Quaternion48.toQuaternion (q : Quaternion48) : Quaternion :=
  normalize4 q.fx q.fy q.fz q.fw

/-- `From<Quaternion64> for Quaternion`. -/
def Quaternion64.toQuaternion (q : Quaternion64) : Quaternion :=
  normalize4 q.fx q.fy q.fz q.fw

/-! ## VVD reader (src/vvd/raw.rs, src/vvd/mod.rs) -/

namespace Vvd

/-- `VvdHeader` (src/vvd/raw.rs), 64 bytes. -/
structure Header where
  id : Int
  version : Int
  checksum : List Nat
  lodCount : Int
  lodVertexCount : List Int
  fixupCount : Int
  fixupIndex : Int
  vertexIndex : Int
  tangentIndex : Int
deriving DecidableEq, Repr

/-- Field layout of `VvdHeader`. -/
def Header.ofBytes (c : Bytes) : Header :=
  { id := i32le c 0
    version := i32le c 4
    checksum := [byteD c 8, byteD c 9, byteD c 10, byteD c 11]
    lodCount := i32le c 12
    lodVertexCount :=
      [i32le c 16, i32le c 20, i32le c 24, i32le c 28,
       i32le c 32, i32le c 36, i32le c 40, i32le c 44]
    fixupCount := i32le c 48
    fixupIndex := i32le c 52
    vertexIndex := i32le c 56
    tangentIndex := i32le c 60 }

/-- `<VvdHeader as Readable>::read`. -/
def Header.read (d : Bytes) : Except ModelError Header :=
  if 64 ≤ d.length then .ok (Header.ofBytes (chunk d 0 64)) else .error (.eof 64)

/-- `VvdHeader::has_fixups`. -/
def Header.hasFixups (h : Header) : Bool := 0 < h.fixupCount

/-- `VvdHeader::fixup_indexes`. -/
def Header.fixupIndexes (h : Header) : List Nat :=
  indexRange h.fixupIndex h.fixupCount 12

/-- `VvdHeader::vertex_indexes(lod)` (only ever called with `lod = 0`). -/
def Header.vertexIndexes (h : Header) (lod : Int) : Option (List Nat) :=
  if lod < h.lodCount then
    some (indexRange h.vertexIndex (h.lodVertexCount.getD (usizeOfInt lod) 0) 48)
  else none

/-- `VvdHeader::tangent_indexes(lod)`. -/
def Header.tangentIndexes (h : Header) (lod : Int) : Option (List Nat) :=
  if lod < h.lodCount then
    some (indexRange h.tangentIndex (h.lodVertexCount.getD (usizeOfInt lod) 0) 16)
  else none

/-- `BoneWeights` (src/vvd/raw.rs): the `f32` weights are kept as their
raw 32-bit patterns. -/
structure BoneWeights where
  weight : List Nat
  bone : List Nat
  boneCount : Nat
deriving DecidableEq, Repr

/-- `Vertex` (src/vvd/raw.rs), 48 bytes; `f32` fields kept as raw
patterns. -/
structure Vertex where
  boneWeights : BoneWeights
  position : List Nat
  normal : List Nat
  textureCoordinates : List Nat
deriving DecidableEq, Repr

/-- Field layout of `Vertex`. -/
def Vertex.ofBytes (c : Bytes) : Vertex :=
  { boneWeights :=
      { weight := [u32le c 0, u32le c 4, u32le c 8]
        bone := [byteD c 12, byteD c 13, byteD c 14]
        boneCount := byteD c 15 }
    position := [u32le c 16, u32le c 20, u32le c 24]
    normal := [u32le c 28, u32le c 32, u32le c 36]
    textureCoordinates := [u32le c 40, u32le c 44] }

/-- One `[f32; 4]` tangent record, 16 bytes, raw patterns. -/
def tangentOfBytes (c : Bytes) : List Nat :=
  [u32le c 0, u32le c 4, u32le c 8, u32le c 12]

/-- `VertexFileFixup` (src/vvd/raw.rs), 12 bytes. -/
structure VertexFileFixup where
  lod : Int
  sourceVertexId : Int
  vertexCount : Int
deriving DecidableEq, Repr

/-- Field layout of `VertexFileFixup`. -/
def VertexFileFixup.ofBytes (c : Bytes) : VertexFileFixup :=
  { lod := i32le c 0, sourceVertexId := i32le c 4, vertexCount := i32le c 8 }

/-- Read one `Vertex` record at an offset of the file. -/
def readVertex (d : Bytes) (off : Nat) : Except ModelError Vertex :=
  readPod "Vertex" 48 Vertex.ofBytes d off

/-- Read one tangent record at an offset of the file. -/
def readTangent (d : Bytes) (off : Nat) : Except ModelError (List Nat) :=
  readPod "Tangent" 16 tangentOfBytes d off

/-- Read one `VertexFileFixup` record at an offset of the file. -/
def readFixup (d : Bytes) (off : Nat) : Except ModelError VertexFileFixup :=
  readPod "VertexFileFixup" 12 VertexFileFixup.ofBytes d off

/-- The `from` index of a fix-up: `fixup.source_vertex_id as usize`. -/
def VertexFileFixup.fromIdx (f : VertexFileFixup) : Nat :=
  usizeOfInt f.sourceVertexId

/-- The `to` index of a fix-up:
`fixup.source_vertex_id.saturating_add(fixup.vertex_count) as usize`. -/
def VertexFileFixup.toIdx (f : VertexFileFixup) : Nat :=
  usizeOfInt (satAddI32 f.sourceVertexId f.vertexCount)

/-- `source.get(from..to)`: `Some` exactly when `from ≤ to ≤ len`
(Rust slice-range indexing), failing with the `OutOfBounds` error the
caller attaches. -/
def sliceGet {α : Type} (xs : List α) (lo hi : Nat) (name : String) :
    Except ModelError (List α) :=
  if lo ≤ hi ∧ hi ≤ xs.length then .ok ((xs.drop lo).take (hi - lo))
  else .error (.outOfBounds name hi)

/-- The fix-up loop of `Vvd::read` (src/vvd/mod.rs lines 37-56): for each
fix-up offset, read the fix-up, then copy `source[from..to]` from both
source arrays; fix-ups are processed in table order and *no* fix-up is
skipped (in particular the `lod` field is never consulted). -/
def applyFixups (d : Bytes) (sourceVertices : List Vertex)
    (sourceTangents : List (List Nat)) :
    List Nat → Except ModelError (List Vertex × List (List Nat))
  | [] => .ok ([], [])
  | o :: rest => do
    let f ← readFixup d o
    let vs ← sliceGet sourceVertices f.fromIdx f.toIdx "source_vertices"
    let ts ← sliceGet sourceTangents f.fromIdx f.toIdx "source_tangents"
    let (vrest, trest) ← applyFixups d sourceVertices sourceTangents rest
    .ok (vs ++ vrest, ts ++ trest)

/-- The parsed `Vvd` value. -/
structure T where
  header : Header
  vertices : List Vertex
  tangents : List (List Nat)
deriving DecidableEq, Repr

/-- The source-vertex array step of `Vvd::read`:
`read_relative(data, header.vertex_indexes(0).ok_or(OutOfBounds)?)`. -/
def readSourceVertices (d : Bytes) (header : Header) :
    Except ModelError (List Vertex) :=
  match header.vertexIndexes 0 with
  | some os => readRelativeList (readVertex d) os
  | none => .error (.outOfBounds "model_lod" 0)

/-- The source-tangent array step of `Vvd::read`. -/
def readSourceTangents (d : Bytes) (header : Header) :
    Except ModelError (List (List Nat)) :=
  match header.tangentIndexes 0 with
  | some os => readRelativeList (readTangent d) os
  | none => .error (.outOfBounds "model_lod" 0)

/-- The fix-up table of a VVD file, as the reader's per-fix-up
`read_relative_iter` reads produce it (used to state properties of
`Vvd::read`). -/
def fixupsOf (d : Bytes) (header : Header) :
    Except ModelError (List VertexFileFixup) :=
  readRelativeList (readFixup d) header.fixupIndexes

/-- `Vvd::read` (src/vvd/mod.rs lines 18-67). -/
def read (d : Bytes) : Except ModelError T := do
  let header ← Header.read d
  let sourceVertices ← readSourceVertices d header
  let sourceTangents ← readSourceTangents d header
  if header.hasFixups then do
    let (vertices, tangents) ← applyFixups d sourceVertices sourceTangents header.fixupIndexes
    .ok { header, vertices, tangents }
  else
    .ok { header, vertices := sourceVertices, tangents := sourceTangents }

end Vvd

/-! ## VTX reader (src/vtx/raw.rs, src/vtx/mod.rs)

The raw VTX records are read through `binrw`; a failed `binrw` read is
surfaced as the `io` error variant.  Each record type reads its
`size_of` bytes little-endian from the record offset. -/

namespace Vtx

/-- `VtxHeader` (src/vtx/raw.rs), 36 bytes. -/
structure Header where
  version : Int
  vertexCacheSize : Int
  maxBonesPerStrip : Nat
  maxBonesPerTriangle : Nat
  maxBonesPerVertex : Int
  checksum : List Nat
  lodCount : Int
  materialReplacementList : Int
  bodyPartCount : Int
  bodyPartOffset : Int
deriving DecidableEq, Repr

/-- Field layout of `VtxHeader`. -/
def Header.ofBytes (c : Bytes) : Header :=
  { version := i32le c 0
    vertexCacheSize := i32le c 4
    maxBonesPerStrip := u16le c 8
    maxBonesPerTriangle := u16le c 10
    maxBonesPerVertex := i32le c 12
    checksum := [byteD c 16, byteD c 17, byteD c 18, byteD c 19]
    lodCount := i32le c 20
    materialReplacementList := i32le c 24
    bodyPartCount := i32le c 28
    bodyPartOffset := i32le c 32 }

/-- `binrw`-style read of a fixed-size record: the reader consumes
exactly `size` bytes from the cursor start and fails (as an I/O error)
when fewer are available. -/
def readBin {α : Type} (size : Nat) (ofBytes : Bytes → α) (d : Bytes) :
    Except ModelError α :=
  if size ≤ d.length then .ok (ofBytes (chunk d 0 size)) else .error .io

/-- The `data.get(index..)` guard used at every VTX hierarchy level. -/
def atOffset (name : String) (d : Bytes) (off : Nat) : Except ModelError Bytes :=
  if off ≤ d.length then .ok (d.drop off) else .error (.outOfBounds name off)

/-- `VtxHeader::body_indexes`. -/
def Header.bodyIndexes (h : Header) : List Nat :=
  indexRange h.bodyPartOffset h.bodyPartCount 8

/-- `Vertex` (src/vtx/raw.rs), 9 bytes packed. -/
structure Vertex where
  boneWeightIndexes : List Nat
  boneCount : Nat
  originalMeshVertexId : Nat
  boneId : List Nat
deriving DecidableEq, Repr

/-- Field layout of the VTX `Vertex`. -/
def Vertex.ofBytes (c : Bytes) : Vertex :=
  { boneWeightIndexes := [byteD c 0, byteD c 1, byteD c 2]
    boneCount := byteD c 3
    originalMeshVertexId := u16le c 4
    boneId := [byteD c 6, byteD c 7, byteD c 8] }

/-- A half-open `usize` range (`std::ops::Range<usize>`). -/
structure RRange where
  start : Nat
  stop : Nat
deriving DecidableEq, Repr

/-- `Range::len` (`0` when the range is backwards). -/
def RRange.len (r : RRange) : Nat := r.stop - r.start

/-- `StripHeader` (src/vtx/raw.rs), 27 bytes packed. -/
structure StripHeader where
  indexCount : Int
  indexOffset : Int
  vertexCount : Int
  vertexOffset : Int
  boneCount : Nat
  flags : Nat
  boneStateChangeCount : Int
  boneStateChangeOffset : Int
deriving DecidableEq, Repr

/-- Field layout of `StripHeader`. -/
def StripHeader.ofBytes (c : Bytes) : StripHeader :=
  { indexCount := i32le c 0
    indexOffset := i32le c 4
    vertexCount := i32le c 8
    vertexOffset := i32le c 12
    boneCount := u16le c 16
    flags := byteD c 18
    boneStateChangeCount := i32le c 19
    boneStateChangeOffset := i32le c 23 }

/-- `StripFlags::IS_TRI_LIST`. -/
def stripFlagIsTriList : Nat := 1

/-- `StripFlags::IS_TRI_STRIP`. -/
def stripFlagIsTriStrip : Nat := 2

/-- Bit-flag containment test (`bitflags`' `contains`). -/
def flagsContain (flags bit : Nat) : Bool := flags % 2 ^ 8 &&& bit = bit

/-- `StripHeader::vertex_indexes`:
`vertex_offset as usize..(vertex_offset + vertex_count) as usize`
(release-mode wrapping `i32` addition). -/
def StripHeader.vertexIndexes (h : StripHeader) : RRange :=
  ⟨usizeOfInt h.vertexOffset, usizeOfInt (wrapAddI32 h.vertexOffset h.vertexCount)⟩

/-- `StripHeader::index_indexes`. -/
def StripHeader.indexIndexes (h : StripHeader) : RRange :=
  ⟨usizeOfInt h.indexOffset, usizeOfInt (wrapAddI32 h.indexOffset h.indexCount)⟩

/-- `Strip` (src/vtx/mod.rs lines 194-200). -/
structure Strip where
  vertices : RRange
  flags : Nat
  indices : RRange
deriving DecidableEq, Repr

/-- `Strip::read`. -/
def Strip.ofHeader (h : StripHeader) : Strip :=
  { vertices := h.vertexIndexes, flags := h.flags, indices := h.indexIndexes }

/-- `Strip::indices` (src/vtx/mod.rs lines 215-226): expansion of the
strip into triangles, yielded as `[usize; 3]` triples.

* `IS_TRI_STRIP` set: for every `i` in `0..indices.len()` emit
  `[idx, idx + 1 - cw, idx + 2 - cw]` with `idx = start + i`,
  `cw = i & 1`.
* otherwise (the `IS_TRI_LIST` case): `indices.step_by(3)` emits
  `[i, i + 1, i + 2]` for `i = start, start + 3, ...` below `stop`. -/
def Strip.triangles (s : Strip) : List (List Nat) :=
  if flagsContain s.flags stripFlagIsTriStrip then
    (List.range s.indices.len).map (fun i =>
      let cw := i &&& 1
      let idx := s.indices.start + i
      [idx, idx + 1 - cw, idx + 2 - cw])
  else
    (List.range ((s.indices.len + 2) / 3)).map (fun j =>
      let i := s.indices.start + 3 * j
      [i, i + 1, i + 2])

/-- `StripGroupHeader` (src/vtx/raw.rs), 25 bytes packed. -/
structure StripGroupHeader where
  vertexCount : Int
  vertexOffset : Int
  indexCount : Int
  indexOffset : Int
  stripCount : Int
  stripOffset : Int
  flags : Nat
deriving DecidableEq, Repr

/-- Field layout of `StripGroupHeader`. -/
def StripGroupHeader.ofBytes (c : Bytes) : StripGroupHeader :=
  { vertexCount := i32le c 0
    vertexOffset := i32le c 4
    indexCount := i32le c 8
    indexOffset := i32le c 12
    stripCount := i32le c 16
    stripOffset := i32le c 20
    flags := byteD c 24 }

/-- `StripGroup` (src/vtx/mod.rs). -/
structure StripGroup where
  indices : List Nat
  vertices : List Vertex
  strips : List Strip
  flags : Nat
deriving DecidableEq, Repr

/-- `StripGroup::read`: the group reads its vertex, strip and index
arrays through the offset-count-stride pattern, in that order. -/
def StripGroup.read (d : Bytes) (h : StripGroupHeader) :
    Except ModelError StripGroup := do
  let vertices ← readRelativeList
    (fun o => do
      let dv ← atOffset "Vertex" d o
      readBin 9 Vertex.ofBytes dv)
    (indexRange h.vertexOffset h.vertexCount 9)
  let strips ← readRelativeList
    (fun o => do
      let ds ← atOffset "Strip" d o
      let sh ← readBin 27 StripHeader.ofBytes ds
      .ok (Strip.ofHeader sh))
    (indexRange h.stripOffset h.stripCount 27)
  let indices ← readRelativeList
    (fun o => do
      let di ← atOffset "VertexIndex" d o
      readBin 2 (fun c => u16le c 0) di)
    (indexRange h.indexOffset h.indexCount 2)
  .ok { indices, vertices, strips, flags := h.flags }

/-- `MeshHeader` (src/vtx/raw.rs), 9 bytes packed. -/
structure MeshHeader where
  stripGroupCount : Int
  stripGroupOffset : Int
  flags : Nat
deriving DecidableEq, Repr

/-- Field layout of the VTX `MeshHeader`. -/
def MeshHeader.ofBytes (c : Bytes) : MeshHeader :=
  { stripGroupCount := i32le c 0, stripGroupOffset := i32le c 4, flags := byteD c 8 }

/-- `Mesh` (src/vtx/mod.rs). -/
structure Mesh where
  stripGroups : List StripGroup
  flags : Nat
deriving DecidableEq, Repr

/-- `Mesh::read`. -/
def Mesh.read (d : Bytes) (h : MeshHeader) : Except ModelError Mesh := do
  let gs ← readRelativeList
    (fun o => do
      let dg ← atOffset "StripGroup" d o
      let gh ← readBin 25 StripGroupHeader.ofBytes dg
      StripGroup.read dg gh)
    (indexRange h.stripGroupOffset h.stripGroupCount 25)
  .ok { stripGroups := gs, flags := h.flags }

/-- `ModelLodHeader` (src/vtx/raw.rs), 12 bytes. -/
structure ModelLodHeader where
  meshCount : Int
  meshOffset : Int
  switchPoint : Nat
deriving DecidableEq, Repr

/-- Field layout of `ModelLodHeader` (`switch_point` kept as its raw
`f32` pattern). -/
def ModelLodHeader.ofBytes (c : Bytes) : ModelLodHeader :=
  { meshCount := i32le c 0, meshOffset := i32le c 4, switchPoint := u32le c 8 }

/-- `ModelLod` (src/vtx/mod.rs). -/
structure ModelLod where
  meshes : List Mesh
  switchPoint : Nat
deriving DecidableEq, Repr

/-- `ModelLod::read`. -/
def ModelLod.read (d : Bytes) (h : ModelLodHeader) : Except ModelError ModelLod := do
  let ms ← readRelativeList
    (fun o => do
      let dm ← atOffset "Mesh" d o
      let mh ← readBin 9 MeshHeader.ofBytes dm
      Mesh.read dm mh)
    (indexRange h.meshOffset h.meshCount 9)
  .ok { meshes := ms, switchPoint := h.switchPoint }

/-- `ModelHeader` (src/vtx/raw.rs), 8 bytes. -/
structure ModelHeader where
  lodCount : Int
  lodOffset : Int
deriving DecidableEq, Repr

/-- Field layout of the VTX `ModelHeader`. -/
def ModelHeader.ofBytes (c : Bytes) : ModelHeader :=
  { lodCount := i32le c 0, lodOffset := i32le c 4 }

/-- `Model` (src/vtx/mod.rs). -/
structure Model where
  lods : List ModelLod
deriving DecidableEq, Repr

/-- `Model::read`. -/
def Model.read (d : Bytes) (h : ModelHeader) : Except ModelError Model := do
  let lods ← readRelativeList
    (fun o => do
      let dl ← atOffset "ModelLod" d o
      let lh ← readBin 12 ModelLodHeader.ofBytes dl
      ModelLod.read dl lh)
    (indexRange h.lodOffset h.lodCount 12)
  .ok { lods }

/-- `BodyPartHeader` (src/vtx/raw.rs), 8 bytes. -/
structure BodyPartHeader where
  modelCount : Int
  modelOffset : Int
deriving DecidableEq, Repr

/-- Field layout of the VTX `BodyPartHeader`. -/
def BodyPartHeader.ofBytes (c : Bytes) : BodyPartHeader :=
  { modelCount := i32le c 0, modelOffset := i32le c 4 }

/-- `BodyPart` (src/vtx/mod.rs). -/
structure BodyPart where
  models : List Model
deriving DecidableEq, Repr

/-- `BodyPart::read`. -/
def BodyPart.read (d : Bytes) (h : BodyPartHeader) : Except ModelError BodyPart := do
  let models ← readRelativeList
    (fun o => do
      let dm ← atOffset "Model" d o
      let mh ← readBin 8 ModelHeader.ofBytes dm
      Model.read dm mh)
    (indexRange h.modelOffset h.modelCount 8)
  .ok { models }

/-- The parsed `Vtx` value. -/
structure T where
  header : Header
  bodyParts : List BodyPart
deriving DecidableEq, Repr

/-- `Vtx::read` (src/vtx/mod.rs lines 21-41). -/
def read (d : Bytes) : Except ModelError T := do
  let header ← readBin 36 Header.ofBytes d
  let bodyParts ← readRelativeList
    (fun o => do
      let db ← atOffset "BodyPart" d o
      let bh ← readBin 8 BodyPartHeader.ofBytes db
      BodyPart.read db bh)
    header.bodyIndexes
  .ok { header, bodyParts }

end Vtx

/-! ## MDL reader: headers and bones (src/mdl/raw/header.rs,
src/mdl/raw/header2.rs, src/mdl/raw/bones.rs, src/mdl/raw/mod.rs) -/

namespace Mdl

/-- A raw 3-component `f32` vector (bit patterns). -/
def vec3OfBytes (c : Bytes) (o : Nat) : List Nat :=
  [u32le c o, u32le c (o + 4), u32le c (o + 8)]

/-- A raw 4-component `f32` quaternion (bit patterns). -/
def vec4OfBytes (c : Bytes) (o : Nat) : List Nat :=
  [u32le c o, u32le c (o + 4), u32le c (o + 8), u32le c (o + 12)]

/-- A raw 3x4 `f32` transform (12 bit patterns, row-major). -/
def transform3x4OfBytes (c : Bytes) (o : Nat) : List Nat :=
  (List.range 12).map (fun i => u32le c (o + 4 * i))

/-- `StudioHeader` (src/mdl/raw/header.rs), 408 bytes.  Scalars that the
source keeps as `f32` are raw bit patterns here. -/
structure StudioHeader where
  id : Int
  version : Int
  checksum : List Nat
  name : List Nat
  dataLength : Int
  eyePosition : List Nat
  illuminationPosition : List Nat
  hullMin : List Nat
  hullMax : List Nat
  viewBbMin : List Nat
  viewBbMax : List Nat
  flags : Nat
  boneCount : Int
  boneOffset : Int
  boneControllerCount : Int
  boneControllerOffset : Int
  hitboxCount : Int
  hitboxOffset : Int
  localAnimationCount : Int
  localAnimationOffset : Int
  localSeqCount : Int
  localSeqOffset : Int
  activityListVersion : Int
  eventsIndexed : Int
  textureCount : Int
  textureOffset : Int
  textureDirCount : Int
  textureDirOffset : Int
  skinReferenceCount : Int
  skinFamilyCount : Int
  skinReferenceOffset : Int
  bodyPartCount : Int
  bodyPartOffset : Int
  attachmentCount : Int
  attachmentOffset : Int
  localNodeCount : Int
  localNodeIndex : Int
  localNodeNameIndex : Int
  flexDescCount : Int
  flexDescIndex : Int
  flexControllerCount : Int
  flexControllerIndex : Int
  flexRulesCount : Int
  flexRulesIndex : Int
  ikChainCount : Int
  ikChainIndex : Int
  mouthsCount : Int
  mouthsIndex : Int
  localPoseParamCount : Int
  localPoseParamIndex : Int
  surfacePropIndex : Int
  keyValueIndex : Int
  keyValueCount : Int
  ikLockCount : Int
  ikLockIndex : Int
  mass : Nat
  contents : Int
  includeModelCount : Int
  includeModelIndex : Int
  virtualModel : Int
  animBlocksNameIndex : Int
  animBlocksCount : Int
  animBlocksIndex : Int
  animBlockModel : Int
  boneTableNameIndex : Int
  vertexBase : Int
  offsetBase : Int
  directionalDotProduct : Nat
  rootLod : Nat
  numAllowedRootLods : Nat
  flexControllerUiCount : Int
  flexControllerUiIndex : Int
  vertAnimFixedPointScale : Nat
  studioHdr2Index : Int

/-- Field layout of `StudioHeader` (matching the wire table in the
format documentation and the `repr(C)` struct). -/
def StudioHeader.ofBytes (c : Bytes) : StudioHeader :=
  { id := i32le c 0
    version := i32le c 4
    checksum := [byteD c 8, byteD c 9, byteD c 10, byteD c 11]
    name := (List.range 64).map (fun i => byteD c (12 + i))
    dataLength := i32le c 76
    eyePosition := vec3OfBytes c 80
    illuminationPosition := vec3OfBytes c 92
    hullMin := vec3OfBytes c 104
    hullMax := vec3OfBytes c 116
    viewBbMin := vec3OfBytes c 128
    viewBbMax := vec3OfBytes c 140
    flags := u32le c 152
    boneCount := i32le c 156
    boneOffset := i32le c 160
    boneControllerCount := i32le c 164
    boneControllerOffset := i32le c 168
    hitboxCount := i32le c 172
    hitboxOffset := i32le c 176
    localAnimationCount := i32le c 180
    localAnimationOffset := i32le c 184
    localSeqCount := i32le c 188
    localSeqOffset := i32le c 192
    activityListVersion := i32le c 196
    eventsIndexed := i32le c 200
    textureCount := i32le c 204
    textureOffset := i32le c 208
    textureDirCount := i32le c 212
    textureDirOffset := i32le c 216
    skinReferenceCount := i32le c 220
    skinFamilyCount := i32le c 224
    skinReferenceOffset := i32le c 228
    bodyPartCount := i32le c 232
    bodyPartOffset := i32le c 236
    attachmentCount := i32le c 240
    attachmentOffset := i32le c 244
    localNodeCount := i32le c 248
    localNodeIndex := i32le c 252
    localNodeNameIndex := i32le c 256
    flexDescCount := i32le c 260
    flexDescIndex := i32le c 264
    flexControllerCount := i32le c 268
    flexControllerIndex := i32le c 272
    flexRulesCount := i32le c 276
    flexRulesIndex := i32le c 280
    ikChainCount := i32le c 284
    ikChainIndex := i32le c 288
    mouthsCount := i32le c 292
    mouthsIndex := i32le c 296
    localPoseParamCount := i32le c 300
    localPoseParamIndex := i32le c 304
    surfacePropIndex := i32le c 308
    keyValueIndex := i32le c 312
    keyValueCount := i32le c 316
    ikLockCount := i32le c 320
    ikLockIndex := i32le c 324
    mass := u32le c 328
    contents := i32le c 332
    includeModelCount := i32le c 336
    includeModelIndex := i32le c 340
    virtualModel := i32le c 344
    animBlocksNameIndex := i32le c 348
    animBlocksCount := i32le c 352
    animBlocksIndex := i32le c 356
    animBlockModel := i32le c 360
    boneTableNameIndex := i32le c 364
    vertexBase := i32le c 368
    offsetBase := i32le c 372
    directionalDotProduct := byteD c 376
    rootLod := byteD c 377
    numAllowedRootLods := byteD c 378
    flexControllerUiCount := i32le c 384
    flexControllerUiIndex := i32le c 388
    vertAnimFixedPointScale := u32le c 392
    studioHdr2Index := i32le c 400 }

/-- `StudioHeader::header2_index`: `Some` only for a positive index. -/
def StudioHeader.header2Index (h : StudioHeader) : Option Nat :=
  if 0 < h.studioHdr2Index then some (usizeOfInt h.studioHdr2Index) else none

/-- `StudioHeader::bone_indexes` (stride `size_of::<Bone>() = 216`). -/
def StudioHeader.boneIndexes (h : StudioHeader) : List Nat :=
  indexRange h.boneOffset h.boneCount 216

/-- `StudioHeader::texture_indexes` (stride `size_of::<MeshTexture>() =
64`). -/
def StudioHeader.textureIndexes (h : StudioHeader) : List Nat :=
  indexRange h.textureOffset h.textureCount 64

/-- `StudioHeader::texture_dir_indexes` (stride 4). -/
def StudioHeader.textureDirIndexes (h : StudioHeader) : List Nat :=
  indexRange h.textureDirOffset h.textureDirCount 4

/-- `StudioHeader::skin_reference_indexes` (count is the release-mode
wrapping product `skin_reference_count * skin_family_count`, stride 2). -/
def StudioHeader.skinReferenceIndexes (h : StudioHeader) : List Nat :=
  indexRange h.skinReferenceOffset (wrapMulI32 h.skinReferenceCount h.skinFamilyCount) 2

/-- `StudioHeader::body_part_indexes` (stride
`size_of::<BodyPartHeader>() = 16`). -/
def StudioHeader.bodyPartIndexes (h : StudioHeader) : List Nat :=
  indexRange h.bodyPartOffset h.bodyPartCount 16

/-- `StudioHeader::attachment_indexes` (stride 1 in the source). -/
def StudioHeader.attachmentIndexes (h : StudioHeader) : List Nat :=
  indexRange h.attachmentOffset h.attachmentCount 1

/-- `StudioHeader::local_animation_indexes` (stride 1 in the source). -/
def StudioHeader.localAnimationIndexes (h : StudioHeader) : List Nat :=
  indexRange h.localAnimationOffset h.localAnimationCount 1

/-- `StudioHeader::local_pose_param_indexes` (stride 1 in the source). -/
def StudioHeader.localPoseParamIndexes (h : StudioHeader) : List Nat :=
  indexRange h.localPoseParamIndex h.localPoseParamCount 1

/-- `StudioHeader::hitbox_indexes` (stride 1 in the source). -/
def StudioHeader.hitboxIndexes (h : StudioHeader) : List Nat :=
  indexRange h.hitboxOffset h.hitboxCount 1

/-- `StudioHeader::animation_block_indexes` (stride 1 in the source). -/
def StudioHeader.animationBlockIndexes (h : StudioHeader) : List Nat :=
  indexRange h.animBlocksIndex h.animBlocksCount 1

/-- `<StudioHeader as Readable>::read`. -/
def StudioHeader.read (d : Bytes) : Except ModelError StudioHeader :=
  if 408 ≤ d.length then .ok (StudioHeader.ofBytes (chunk d 0 408)) else .error (.eof 408)

/-- `StudioHeader2` (src/mdl/raw/header2.rs), 256 bytes. -/
structure StudioHeader2 where
  sourceBoneTransformCount : Int
  sourceBoneTransformIndex : Int
  illuminationPositionAttachmentIndex : Int
  flMaxEyeDeflection : Nat
  linearBoneIndex : Int
  szNameIndex : Int
  boneFlexDriverCount : Int
  boneFlexDriverIndex : Int
deriving DecidableEq, Repr

/-- Field layout of `StudioHeader2` (the two reserved arrays are not
retained). -/
def StudioHeader2.ofBytes (c : Bytes) : StudioHeader2 :=
  { sourceBoneTransformCount := i32le c 0
    sourceBoneTransformIndex := i32le c 4
    illuminationPositionAttachmentIndex := i32le c 8
    flMaxEyeDeflection := u32le c 12
    linearBoneIndex := i32le c 16
    szNameIndex := i32le c 20
    boneFlexDriverCount := i32le c 24
    boneFlexDriverIndex := i32le c 28 }

/-- `read_single::<StudioHeader2>`. -/
def StudioHeader2.readSingle (d : Bytes) (off : Nat) : Except ModelError StudioHeader2 :=
  readPod "StudioHeader2" 256 StudioHeader2.ofBytes d off

/-- `BoneHeader` (src/mdl/raw/bones.rs), 216 bytes. -/
structure BoneHeader where
  szNameIndex : Int
  parent : Int
  boneController : List Int
  pos : List Nat
  quaternion : List Nat
  rot : List Nat
  posScale : List Nat
  rotScale : List Nat
  poseToBone : List Nat
  qAlignment : List Nat
  flags : Nat
  procType : Int
  procIndex : Int
  physicsBone : Int
  surfacePropIdx : Int
  contents : Nat
deriving DecidableEq, Repr

/-- Field layout of `BoneHeader`. -/
def BoneHeader.ofBytes (c : Bytes) : BoneHeader :=
  { szNameIndex := i32le c 0
    parent := i32le c 4
    boneController :=
      [i32le c 8, i32le c 12, i32le c 16, i32le c 20, i32le c 24, i32le c 28]
    pos := vec3OfBytes c 32
    quaternion := vec4OfBytes c 44
    rot := vec3OfBytes c 60
    posScale := vec3OfBytes c 72
    rotScale := vec3OfBytes c 84
    poseToBone := transform3x4OfBytes c 96
    qAlignment := vec4OfBytes c 144
    flags := u32le c 160
    procType := i32le c 164
    procIndex := i32le c 168
    physicsBone := i32le c 172
    surfacePropIdx := i32le c 176
    contents := u32le c 180 }

/-- `ProceduralBone` (src/mdl/raw/bones.rs).  The payload structs are
plain `Pod` records of `f32`/`i32` fields; they are retained as their raw
bytes (`AxisInterpBone` 176, `QuaternionInterpBone` 48, `AiMatBone` 44,
`JiggleBone` 140 bytes) since nothing downstream inspects them. -/
inductive ProceduralBone where
  | axisInterp (payload : Bytes)
  | quaternionInterp (payload : Bytes)
  | aiMatBone (payload : Bytes)
  | aiMatAttach (payload : Bytes)
  | jiggle (payload : Bytes)
deriving DecidableEq, Repr

/-- Read the procedural payload for a given `proc_type` tag (1-5), i.e.
the `Readable::read` of the corresponding `Pod` struct from the start of
`bytes`. -/
def ProceduralBone.read (ty : Int) (bytes : Bytes) :
    Except ModelError ProceduralBone :=
  if ty = 1 then
    if 176 ≤ bytes.length then .ok (.axisInterp (chunk bytes 0 176)) else .error (.eof 176)
  else if ty = 2 then
    if 48 ≤ bytes.length then .ok (.quaternionInterp (chunk bytes 0 48)) else .error (.eof 48)
  else if ty = 3 then
    if 44 ≤ bytes.length then .ok (.aiMatBone (chunk bytes 0 44)) else .error (.eof 44)
  else if ty = 4 then
    if 44 ≤ bytes.length then .ok (.aiMatAttach (chunk bytes 0 44)) else .error (.eof 44)
  else
    if 140 ≤ bytes.length then .ok (.jiggle (chunk bytes 0 140)) else .error (.eof 140)

/-- Parsed `Bone` (src/mdl/raw/bones.rs). -/
structure Bone where
  name : RStr
  parent : Int
  boneController : List Int
  pos : List Nat
  quaternion : List Nat
  rot : List Nat
  posScale : List Nat
  rotScale : List Nat
  poseToBone : List Nat
  qAlignment : List Nat
  flags : Nat
  proceduralRules : Option ProceduralBone
  physicsBone : Int
  surfaceProp : RStr
  contents : Nat
deriving DecidableEq, Repr

/-- The `prop_type.zip(proc_bytes).map(..).transpose()` step of
`Bone::read`: a payload parse when both the tag and the payload slice
are present, `None` otherwise. -/
def readProcRulesOpt (propType : Option Int) (pb : Option Bytes) :
    Except ModelError (Option ProceduralBone) :=
  match propType, pb with
  | some ty, some bytes => (ProceduralBone.read ty bytes).map some
  | _, _ => .ok none

/-- `Bone::read` (src/mdl/raw/bones.rs lines 62-111), with `dEntry` the
slice starting at the bone record (all tail offsets are relative to
it). -/
def Bone.read (dEntry : Bytes) (h : BoneHeader) : Except ModelError Bone := do
  let propType : Option Int :=
    if 1 ≤ h.procType ∧ h.procType ≤ 5 then some h.procType else none
  let procBytes : Except ModelError (Option Bytes) :=
    if h.procIndex ≠ 0 then
      if usizeOfInt h.procIndex ≤ dEntry.length then
        .ok (some (dEntry.drop (usizeOfInt h.procIndex)))
      else .error (.outOfBounds "bone surface property" (usizeOfInt h.procIndex))
    else .ok none
  let pb ← procBytes
  let proceduralRules ← readProcRulesOpt propType pb
  let name ← readCString dEntry h.szNameIndex
  let surfaceProp ← readCString dEntry h.surfacePropIdx
  .ok { name, parent := h.parent, boneController := h.boneController
        pos := h.pos, quaternion := h.quaternion, rot := h.rot
        posScale := h.posScale, rotScale := h.rotScale
        poseToBone := h.poseToBone, qAlignment := h.qAlignment
        flags := h.flags, proceduralRules, physicsBone := h.physicsBone
        surfaceProp, contents := h.contents }

end Mdl

/-! ## MDL reader: animations (src/mdl/raw/animation.rs) -/

namespace Mdl

/-- `AnimationFlags::STUDIO_ANIM_RAWPOS`. -/
def animFlagRawPos : Nat := 1
/-- `AnimationFlags::STUDIO_ANIM_RAWROT`. -/
def animFlagRawRot : Nat := 2
/-- `AnimationFlags::STUDIO_ANIM_ANIMPOS`. -/
def animFlagAnimPos : Nat := 4
/-- `AnimationFlags::STUDIO_ANIM_ANIMROT`. -/
def animFlagAnimRot : Nat := 8
/-- `AnimationFlags::STUDIO_ANIM_DELTA`. -/
def animFlagDelta : Nat := 16
/-- `AnimationFlags::STUDIO_ANIM_RAWROT2`. -/
def animFlagRawRot2 : Nat := 32

/-- Bit-flag containment test on the `u8` animation flags. -/
def animFlagsContain (flags bit : Nat) : Bool := flags % 2 ^ 8 &&& bit = bit

/-- `FrameValues::get` (src/mdl/raw/animation.rs lines 207-231).

The receiver `d` is the byte slice starting at the current
`ValueHeader`; `valid`/`total` are that header's two bytes.  When the
frame `index` falls beyond this node's `total`, the next node starts at
byte offset `(valid + 1) * 2`; the `valid + 1` increment is `u8`
arithmetic and wraps (release mode), which for `valid = 255` re-reads
the current node at offset 0.  Otherwise the value at position
`min(index + 1, valid) * 2` is read as an `i16` through `read_single`.

Termination: every recursive step either drops at least two bytes of
`d` (offset `≥ 2`), or — in the wrapped `valid = 255` case — keeps `d`
and strictly decreases `index` (the next node's `total` is checked
non-zero, and a node with `total = 0` returns immediately), so
`d.length + index` plus a one-step correction is a decreasing measure. -/
def frameValuesGet (d : Bytes) (valid total : Nat) (index : Nat) :
    Except ModelError Int :=
  if h : total ≤ index then
    if hin : (valid + 1) % 2 ^ 8 * 2 ≤ d.length then
      if hsz : (valid + 1) % 2 ^ 8 * 2 + 2 ≤ d.length then
        if hz : byteD d ((valid + 1) % 2 ^ 8 * 2 + 1) = 0 then .ok 0
        else
          frameValuesGet (d.drop ((valid + 1) % 2 ^ 8 * 2))
            (byteD d ((valid + 1) % 2 ^ 8 * 2))
            (byteD d ((valid + 1) % 2 ^ 8 * 2 + 1)) (index - total)
      else .error (.eof 2)
    else .error (.outOfBounds "ValueHeader" ((valid + 1) % 2 ^ 8 * 2))
  else
    readPod "i16" 2 (fun c => i16le c 0) d
      ((if index < valid then index + 1 else valid) * 2)
termination_by d.length + index + (if total = 0 then 1 else 0)
decreasing_by
  simp only [List.length_drop]
  split_ifs <;> omega

/-- Fuel-limited variant of `frameValuesGet`, used to reason about the
recursion depth of the chain walk: `none` means the step budget ran
out, otherwise the behaviour is identical. -/
def frameValuesGetFuel : Nat → Bytes → Nat → Nat → Nat → Option (Except ModelError Int)
  | 0, _, _, _, _ => none
  | fuel + 1, d, valid, total, index =>
    if total ≤ index then
      if (valid + 1) % 2 ^ 8 * 2 ≤ d.length then
        if (valid + 1) % 2 ^ 8 * 2 + 2 ≤ d.length then
          if byteD d ((valid + 1) % 2 ^ 8 * 2 + 1) = 0 then some (.ok 0)
          else
            frameValuesGetFuel fuel (d.drop ((valid + 1) % 2 ^ 8 * 2))
              (byteD d ((valid + 1) % 2 ^ 8 * 2))
              (byteD d ((valid + 1) % 2 ^ 8 * 2 + 1)) (index - total)
        else some (.error (.eof 2))
      else some (.error (.outOfBounds "ValueHeader" ((valid + 1) % 2 ^ 8 * 2)))
    else
      some (readPod "i16" 2 (fun c => i16le c 0) d
        ((if index < valid then index + 1 else valid) * 2))

/-- One step of `read_animation_values` for a single axis pointer
(src/mdl/raw/animation.rs lines 176-187): a zero pointer yields `0.0`,
otherwise the `ValueHeader` at `p` is read and the chained lookup is
started at `p` with the frame index truncated to `u8` (`frame as u8`).
The `i16` to `f32` conversion is exact. -/
def animValueAt (d : Bytes) (frame : Nat) (p : Nat) : Except ModelError ℚ :=
  if p = 0 then .ok 0
  else do
    let hd ← readPod "ValueHeader" 2 (fun c => (byteD c 0, byteD c 1)) d p
    let v ← frameValuesGet (d.drop p) hd.1 hd.2 (frame % 2 ^ 8)
    .ok (v : ℚ)

/-- `read_animation_values` (src/mdl/raw/animation.rs lines 170-189):
the three axis pointers in order. -/
def readAnimationValues (d : Bytes) (frame : Nat) (p0 p1 p2 : Nat) :
    Except ModelError (List ℚ) := do
  let v0 ← animValueAt d frame p0
  let v1 ← animValueAt d frame p1
  let v2 ← animValueAt d frame p2
  .ok [v0, v1, v2]

/-- `RotationData` (src/mdl/raw/animation.rs lines 233-239). -/
inductive RotationData where
  | quaternion48 (q : Quaternion)
  | quaternion64 (q : Quaternion)
  | animated (values : List RadianEuler)
  | noRotation
deriving DecidableEq, Repr

namespace RotationData

/-- `RotationData::rotation(frame)` (src/mdl/raw/animation.rs lines
262-274): raw variants return the stored quaternion; the animated
variant indexes the frame, falling back to the last stored value (or the
zero Euler for an empty track) and converts through
`From<RadianEuler> for Quaternion`; `None` yields
`Quaternion::default()`. -/
def rotation (sinF cosF : ℚ → ℚ) : RotationData → Nat → Quaternion
  | quaternion48 q, _ => q
  | quaternion64 q, _ => q
  | animated values, frame =>
      eulerToQuat sinF cosF
        ((values.get? frame).getD ((values.getLast?).getD RadianEuler.default))
  | noRotation, _ => Quaternion.default

/-- `RotationData::size` (src/mdl/raw/animation.rs lines 276-283). -/
def size : RotationData → Nat
  | quaternion48 _ => 6
  | quaternion64 _ => 8
  | animated _ => 6
  | noRotation => 0

/-- `RotationData::set_scale` (exact-arithmetic model of the `f32`
componentwise multiply; only the animated variant is affected). -/
def setScale (sx sy sz : ℚ) : RotationData → RotationData
  | animated values =>
      animated (values.map (fun v => ⟨v.x * sx, v.y * sy, v.z * sz⟩))
  | rd => rd

/-- `RotationData::set_base_rotation` (componentwise add on the animated
variant). -/
def setBaseRotation (b1 b2 b3 : ℚ) : RotationData → RotationData
  | animated values =>
      animated (values.map (fun v => ⟨v.x + b1, v.y + b2, v.z + b3⟩))
  | rd => rd

end RotationData

/-- `PositionData` (src/mdl/raw/animation.rs lines 310-315).  The
`Vector48` variant stores the packed value and converts on each
`position` call. -/
inductive PositionData where
  | vector48 (v : Vector48)
  | positionValues (values : List Vector)
  | noPosition
deriving DecidableEq, Repr

namespace PositionData

/-- `PositionData::position(frame)` (src/mdl/raw/animation.rs lines
318-324): the constant variant decodes its `Vector48`; the animated
variant is `values.get(frame).copied().unwrap_or_default()` — a frame
beyond the stored range yields `Vector::default()`, not the last stored
value; `None` yields `Vector::default()`. -/
def position : PositionData → Nat → Vector
  | vector48 v, _ => v.toVector
  | positionValues values, frame => (values.get? frame).getD Vector.default
  | noPosition, _ => Vector.default

/-- `PositionData::set_scale` (exact-arithmetic model). -/
def setScale (sx sy sz : ℚ) : PositionData → PositionData
  | positionValues values =>
      positionValues (values.map (fun v => ⟨v.x * sx, v.y * sy, v.z * sz⟩))
  | pd => pd

end PositionData

/-- Per-bone `Animation` (src/mdl/raw/animation.rs lines 340-346).  The
bone id is the `u8` from the animation record header (`BoneId` is
declared in code outside this repository's sources; modelled from the
spec: the record header is `{ bone: u8, flags: u8, next_offset: u16 }`). -/
structure Animation where
  bone : Nat
  flags : Nat
  rotationData : RotationData
  positionData : PositionData
deriving DecidableEq, Repr

/-- `Animation::rotation(frame)`. -/
def Animation.rotation (sinF cosF : ℚ → ℚ) (a : Animation) (frame : Nat) : Quaternion :=
  a.rotationData.rotation sinF cosF frame

/-- `Animation::position(frame)`. -/
def Animation.position (a : Animation) (frame : Nat) : Vector :=
  a.positionData.position frame

/-- `Animation::set_scales`/`apply_bone_data` (src/mdl/raw/animation.rs
lines 361-367): scale the rotation track by the bone's `rot_scale`, add
the bone's rest `rot` when the `DELTA` flag is set, scale the position
track by `pos_scale`.  The bone's wire floats are decoded exactly. -/
def Animation.applyBoneData (a : Animation) (bone : Bone) : Animation :=
  let rs := bone.rotScale.map f32ToRat
  let rot := bone.rot.map f32ToRat
  let ps := bone.posScale.map f32ToRat
  let rd := a.rotationData.setScale (rs.getD 0 0) (rs.getD 1 0) (rs.getD 2 0)
  let rd :=
    if animFlagsContain a.flags animFlagDelta then
      rd.setBaseRotation (rot.getD 0 0) (rot.getD 1 0) (rot.getD 2 0)
    else rd
  let pd := a.positionData.setScale (ps.getD 0 0) (ps.getD 1 0) (ps.getD 2 0)
  { a with rotationData := rd, positionData := pd }

/-- `Quaternion48` wire layout (three little-endian `u16`). -/
def quaternion48OfBytes (c : Bytes) : Quaternion48 :=
  ⟨u16le c 0, u16le c 2, u16le c 4⟩

/-- `Quaternion64` wire layout (one little-endian `u64`). -/
def quaternion64OfBytes (c : Bytes) : Quaternion64 :=
  ⟨u64le c 0⟩

/-- `Vector48` wire layout (three little-endian `u16`). -/
def vector48OfBytes (c : Bytes) : Vector48 :=
  ⟨u16le c 0, u16le c 2, u16le c 4⟩

/-- The body of `read_animation` (src/mdl/raw/animation.rs lines
370-423) after the `data.get(header_offset..)` guard, operating on the
slice `dh` starting at the record: reads the 4-byte record header,
decodes the rotation payload then the position payload according to the
flags, and returns the animation together with the `next_offset` chain
delta. -/
def readAnimationAt (dh : Bytes) (frames : Nat) :
    Except ModelError (Animation × Nat) := do
  let ah ← readPod "AnimationHeader" 4 (fun c => (byteD c 0, byteD c 1, u16le c 2)) dh 0
  let flags := ah.2.1
  let rotationData ←
    if animFlagsContain flags animFlagRawRot then
      (readPod "Quaternion48" 6 quaternion48OfBytes dh 4).map
        (fun q => RotationData.quaternion48 q.toQuaternion)
    else if animFlagsContain flags animFlagRawRot2 then
      (readPod "Quaternion64" 8 quaternion64OfBytes dh 4).map
        (fun q => RotationData.quaternion64 q.toQuaternion)
    else if animFlagsContain flags animFlagAnimRot then do
      let ps ← readPod "AnimationValuePointer" 6 (fun c => (u16le c 0, u16le c 2, u16le c 4)) dh 4
      let valueData := dh.drop 4
      let values ← (List.range frames).mapM (fun frame => do
        let vs ← readAnimationValues valueData frame ps.1 ps.2.1 ps.2.2
        -- the `[y, z, x]` destructuring with struct shorthand
        -- `RadianEuler { x, z, y }`: euler.x is the third decoded value,
        -- euler.y the first, euler.z the second
        .ok (⟨vs.getD 2 0, vs.getD 0 0, vs.getD 1 0⟩ : RadianEuler))
      .ok (RotationData.animated values)
    else
      .ok RotationData.noRotation
  let positionOffset := 4 + rotationData.size
  let positionData ←
    if animFlagsContain flags animFlagRawPos then
      (readPod "Vector48" 6 vector48OfBytes dh positionOffset).map PositionData.vector48
    else if animFlagsContain flags animFlagAnimPos then do
      let ps ← readPod "AnimationValuePointer" 6 (fun c => (u16le c 0, u16le c 2, u16le c 4))
        dh positionOffset
      let valueData := dh.drop positionOffset
      let values ← (List.range frames).mapM (fun frame => do
        let vs ← readAnimationValues valueData frame ps.1 ps.2.1 ps.2.2
        .ok (⟨vs.getD 0 0, vs.getD 1 0, vs.getD 2 0⟩ : Vector))
      .ok (PositionData.positionValues values)
    else
      .ok PositionData.noPosition
  .ok ({ bone := ah.1, flags, rotationData, positionData }, ah.2.2)

/-- `read_animation` (src/mdl/raw/animation.rs lines 370-378): the
`data.get(header_offset..)` guard, then the record body. -/
def readAnimation (d : Bytes) (headerOffset : Nat) (frames : Nat) :
    Except ModelError (Animation × Nat) :=
  if headerOffset ≤ d.length then readAnimationAt (d.drop headerOffset) frames
  else .error (.outOfBounds "animation data" headerOffset)

end Mdl

/-! ## MDL reader: animation descriptions and the remaining record types
(src/mdl/raw/animation.rs, src/mdl/mod.rs) -/

namespace Mdl

/-- Success of `read_animation` implies the chain offset was in range
(the first step is `data.get(header_offset..)`). -/
theorem readAnimation_ok_le {d : Bytes} {off frames : Nat} {x : Animation × Nat}
    (h : readAnimation d off frames = .ok x) : off ≤ d.length := by
  by_cases hle : off ≤ d.length
  · exact hle
  · rw [readAnimation, if_neg hle] at h
    exact absurd h (by simp)

/-- The per-bone animation chain of `AnimationDescription::read`
(src/mdl/raw/animation.rs lines 96-109): read the record at `offset`,
stop when its `next_offset` is zero, otherwise continue at
`offset + next_offset`.  A successful read forces `offset ≤ d.length`,
and `next_offset ≥ 1` on continuation, so the remaining span
`d.length + 1 - offset` decreases. -/
def readAnimationChain (d : Bytes) (offset : Nat) (frames : Nat) :
    Except ModelError (List Animation) :=
  match hr : readAnimation d offset frames with
  | .error e => .error e
  | .ok (a, next) =>
    if hn : next = 0 then .ok [a]
    else
      match readAnimationChain d (offset + next) frames with
      | .error e => .error e
      | .ok rest => .ok (a :: rest)
termination_by d.length + 1 - offset
decreasing_by
  have := readAnimation_ok_le hr
  omega

/-- `AnimationDescriptionHeader` (src/mdl/raw/animation.rs lines 47-80),
100 bytes. -/
structure AnimationDescriptionHeader where
  basePtr : Int
  nameOffset : Int
  fps : Nat
  flags : Int
  frameCount : Int
  movementCount : Int
  movementOffset : Int
  animationBlock : Int
  animationIndex : Int
  ikRuleCount : Int
  ikRuleOffset : Int
  animationBlockIkRuleIndex : Int
  localHierarchyCount : Int
  localHierarchyOffset : Int
  sectionOffset : Int
  sectionFrames : Int
  zeroFrameSpan : Int
  zeroFrameCount : Int
  zeroFrameOffset : Int
  zeroFrameStallTime : Nat
deriving DecidableEq, Repr

/-- Field layout of `AnimationDescriptionHeader` (the six padding words
at bytes 28-51 are not retained). -/
def AnimationDescriptionHeader.ofBytes (c : Bytes) : AnimationDescriptionHeader :=
  { basePtr := i32le c 0
    nameOffset := i32le c 4
    fps := u32le c 8
    flags := i32le c 12
    frameCount := i32le c 16
    movementCount := i32le c 20
    movementOffset := i32le c 24
    animationBlock := i32le c 52
    animationIndex := i32le c 56
    ikRuleCount := i32le c 60
    ikRuleOffset := i32le c 64
    animationBlockIkRuleIndex := i32le c 68
    localHierarchyCount := i32le c 72
    localHierarchyOffset := i32le c 76
    sectionOffset := i32le c 80
    sectionFrames := i32le c 84
    zeroFrameSpan := i16le c 88
    zeroFrameCount := i16le c 90
    zeroFrameOffset := i32le c 92
    zeroFrameStallTime := u32le c 96 }

/-- Parsed `AnimationDescription`. -/
structure AnimationDescription where
  name : RStr
  fps : Nat
  frameCount : Nat
  animations : List Animation
deriving DecidableEq, Repr

/-- `AnimationDescription::read` (src/mdl/raw/animation.rs lines 95-117),
with `dEntry` the slice starting at the description record.  When
`animation_block != 0` the source hits
`todo!("read animation from animation block")` and panics. -/
def AnimationDescription.read (dEntry : Bytes) (h : AnimationDescriptionHeader) :
    PResult AnimationDescription :=
  if h.animationBlock ≠ 0 then .panicked
  else do
    let animations ← PResult.lift
      (readAnimationChain dEntry (usizeOfInt h.animationIndex) (usizeOfInt h.frameCount))
    let name ← PResult.lift (readCString dEntry h.nameOffset)
    .ok { name, fps := h.fps, frameCount := usizeOfInt h.frameCount, animations }

/-- `MeshTexture` (src/mdl/raw/mod.rs lines 150-163), 64 bytes. -/
structure MeshTexture where
  nameIndex : Int
  flags : Int
  used : Int
  materialPtr : Int
  clientMaterialPtr : Int
deriving DecidableEq, Repr

/-- Field layout of `MeshTexture` (padding not retained). -/
def MeshTexture.ofBytes (c : Bytes) : MeshTexture :=
  { nameIndex := i32le c 0
    flags := i32le c 4
    used := i32le c 8
    materialPtr := i32le c 16
    clientMaterialPtr := i32le c 20 }

/-- Parsed `TextureInfo` (src/mdl/mod.rs lines 171-192): the name is read
at `name_index` relative to the record, with an out-of-range offset
yielding the empty slice (`unwrap_or_default`), and backslashes are
replaced. -/
structure TextureInfo where
  name : RStr
  nameIndex : Int
  searchPaths : List RStr
deriving DecidableEq, Repr

/-- `TextureInfo::read`. -/
def TextureInfo.read (dEntry : Bytes) (h : MeshTexture) :
    Except ModelError TextureInfo := do
  let name ← stringAtOrEmpty dEntry h.nameIndex
  .ok { name := replaceBackslashes name, nameIndex := h.nameIndex, searchPaths := [] }

/-- `PoseParameterDescriptionHeader` (src/mdl/raw/animation.rs lines
12-22), 20 bytes. -/
structure PoseParameterDescriptionHeader where
  nameIndex : Int
  flags : Int
  start : Nat
  stop : Nat
  loopRange : Nat
deriving DecidableEq, Repr

/-- Field layout of `PoseParameterDescriptionHeader` (the three `f32`
fields kept raw). -/
def PoseParameterDescriptionHeader.ofBytes (c : Bytes) : PoseParameterDescriptionHeader :=
  { nameIndex := i32le c 0
    flags := i32le c 4
    start := u32le c 8
    stop := u32le c 12
    loopRange := u32le c 16 }

/-- Parsed `PoseParameterDescription`. -/
structure PoseParameterDescription where
  name : RStr
  flags : Int
  start : Nat
  stop : Nat
  loopRange : Nat
deriving DecidableEq, Repr

/-- `PoseParameterDescription::read`. -/
def PoseParameterDescription.read (dEntry : Bytes) (h : PoseParameterDescriptionHeader) :
    Except ModelError PoseParameterDescription := do
  let name ← readCString dEntry h.nameIndex
  .ok { name, flags := h.flags, start := h.start, stop := h.stop, loopRange := h.loopRange }

/-- `AnimationBlock` (src/mdl/raw/animation.rs lines 120-127), 8
bytes. -/
structure AnimationBlock where
  start : Int
  stop : Int
deriving DecidableEq, Repr

/-- Field layout of `AnimationBlock`. -/
def AnimationBlock.ofBytes (c : Bytes) : AnimationBlock :=
  { start := i32le c 0, stop := i32le c 4 }

/-- Modelled from the spec: `StudioAttachmentHeader` is declared in code
outside this repository's sources (only `StudioAttachment::read` in
src/mdl/mod.rs uses it).  Per the spec the attachment record follows the
standard header-plus-relative-tail pattern with a name index, a `u32`
flag word, a local bone index and a 3x4 local transform; the wire record
is 92 bytes. -/
structure StudioAttachmentHeader where
  nameIndex : Int
  flags : Nat
  localBone : Int
  localTransform : List Nat
deriving DecidableEq, Repr

/-- Modelled from the spec: field layout of the attachment record. -/
def StudioAttachmentHeader.ofBytes (c : Bytes) : StudioAttachmentHeader :=
  { nameIndex := i32le c 0
    flags := u32le c 4
    localBone := i32le c 8
    localTransform := transform3x4OfBytes c 12 }

/-- Parsed `StudioAttachment` (src/mdl/mod.rs lines 195-217). -/
structure StudioAttachment where
  name : RStr
  flags : Nat
  localBone : Int
  localTransform : List Nat
deriving DecidableEq, Repr

/-- `StudioAttachment::read`: name via the `unwrap_or_default` slice with
backslash replacement. -/
def StudioAttachment.read (dEntry : Bytes) (h : StudioAttachmentHeader) :
    Except ModelError StudioAttachment := do
  let name ← stringAtOrEmpty dEntry h.nameIndex
  .ok { name := replaceBackslashes name, flags := h.flags
        localBone := h.localBone, localTransform := h.localTransform }

/-- Modelled from the spec: `BoundingBoxHeader` is declared in code
outside this repository's sources (only `BoundingBox::read` in
src/mdl/mod.rs uses it); the record is a bone index, a group, min/max
vectors and a name index — 68 bytes on the wire. -/
structure BoundingBoxHeader where
  bone : Int
  group : Int
  boundingBoxMin : List Nat
  boundingBoxMax : List Nat
  nameIndex : Int
deriving DecidableEq, Repr

/-- Modelled from the spec: field layout of the hit-box record. -/
def BoundingBoxHeader.ofBytes (c : Bytes) : BoundingBoxHeader :=
  { bone := i32le c 0
    group := i32le c 4
    boundingBoxMin := vec3OfBytes c 8
    boundingBoxMax := vec3OfBytes c 20
    nameIndex := i32le c 32 }

/-- Parsed `BoundingBox` (src/mdl/mod.rs lines 240-265). -/
structure BoundingBox where
  name : RStr
  bone : Int
  group : Int
  bbMin : List Nat
  bbMax : List Nat
deriving DecidableEq, Repr

/-- `BoundingBox::read`. -/
def BoundingBox.read (dEntry : Bytes) (h : BoundingBoxHeader) :
    Except ModelError BoundingBox := do
  let name ← stringAtOrEmpty dEntry h.nameIndex
  .ok { name := replaceBackslashes name, bone := h.bone, group := h.group
        bbMin := h.boundingBoxMin, bbMax := h.boundingBoxMax }

/-- Modelled from the spec: `HitBoxSetHeader` is declared in code outside
this repository's sources (only `HitBoxSet::read` in src/mdl/mod.rs uses
it); the record is a name index plus a count-and-offset pair for the
contained hit boxes — 12 bytes on the wire. -/
structure HitBoxSetHeader where
  nameIndex : Int
  hitboxCount : Int
  hitboxIndex : Int
deriving DecidableEq, Repr

/-- Modelled from the spec: field layout of the hit-box-set record. -/
def HitBoxSetHeader.ofBytes (c : Bytes) : HitBoxSetHeader :=
  { nameIndex := i32le c 0, hitboxCount := i32le c 4, hitboxIndex := i32le c 8 }

/-- Parsed `HitBoxSet` (src/mdl/mod.rs lines 220-238). -/
structure HitBoxSet where
  name : RStr
  boxes : List BoundingBox
deriving DecidableEq, Repr

/-- `HitBoxSet::read`: name, then the contained bounding boxes via the
offset-count-stride pattern relative to the set record. -/
def HitBoxSet.read (dEntry : Bytes) (h : HitBoxSetHeader) :
    Except ModelError HitBoxSet := do
  let name ← stringAtOrEmpty dEntry h.nameIndex
  let boxes ← readRelativeList
    (fun o => do
      let db ←
        if o ≤ dEntry.length then .ok (dEntry.drop o)
        else .error (.outOfBounds "BoundingBox" o)
      let bh ← readPod "BoundingBoxHeader" 68 BoundingBoxHeader.ofBytes db 0
      BoundingBox.read db bh)
    (indexRange h.hitboxIndex h.hitboxCount 68)
  .ok { name := replaceBackslashes name, boxes }

/-- `MeshHeader` (src/mdl/raw/mod.rs lines 123-139), 116 bytes. -/
structure MeshHeader where
  material : Int
  modelIndex : Int
  vertexCount : Int
  vertexIndex : Int
  flexCount : Int
  flexIndex : Int
  materialType : Int
  materialParam : Int
  meshId : Int
  center : List Nat
deriving DecidableEq, Repr

/-- Field layout of the MDL `MeshHeader` (vertex data block and padding
not retained). -/
def MeshHeader.ofBytes (c : Bytes) : MeshHeader :=
  { material := i32le c 0
    modelIndex := i32le c 4
    vertexCount := i32le c 8
    vertexIndex := i32le c 12
    flexCount := i32le c 16
    flexIndex := i32le c 20
    materialType := i32le c 24
    materialParam := i32le c 28
    meshId := i32le c 32
    center := vec3OfBytes c 36 }

/-- Parsed MDL `Mesh` (src/mdl/mod.rs lines 154-168). -/
structure Mesh where
  material : Int
  vertexOffset : Int
deriving DecidableEq, Repr

/-- `ModelHeader` (src/mdl/raw/mod.rs lines 86-106), 148 bytes. -/
structure ModelHeader where
  name : List Nat
  ty : Int
  boundingRadius : Nat
  meshCount : Int
  meshIndex : Int
  vertexCount : Int
  vertexIndex : Int
  tangentIndex : Int
  attachmentCount : Int
  attachmentIndex : Int
  eyeballCount : Int
  eyeballIndex : Int
deriving DecidableEq, Repr

/-- Field layout of the MDL `ModelHeader` (vertex-data pointers and
padding not retained). -/
def ModelHeader.ofBytes (c : Bytes) : ModelHeader :=
  { name := (List.range 64).map (fun i => byteD c i)
    ty := i32le c 64
    boundingRadius := u32le c 68
    meshCount := i32le c 72
    meshIndex := i32le c 76
    vertexCount := i32le c 80
    vertexIndex := i32le c 84
    tangentIndex := i32le c 88
    attachmentCount := i32le c 92
    attachmentIndex := i32le c 96
    eyeballCount := i32le c 100
    eyeballIndex := i32le c 104 }

/-- `ModelHeader::mesh_indexes` (stride `size_of::<MeshHeader>() =
116`). -/
def ModelHeader.meshIndexes (h : ModelHeader) : List Nat :=
  indexRange h.meshIndex h.meshCount 116

/-- Parsed MDL `Model` (src/mdl/mod.rs lines 130-152). -/
structure Model where
  name : RStr
  ty : Int
  boundingRadius : Nat
  meshes : List Mesh
  vertexOffset : Int
deriving DecidableEq, Repr

/-- `Model::read`: meshes first, then the fixed name
(`FixedString::<64>::try_from`), and `vertex_offset = vertex_index /
size_of::<Vertex>()` — a truncating `i32` division by 48 performed at
parse time. -/
def Model.read (dEntry : Bytes) (h : ModelHeader) : Except ModelError Model := do
  let meshes ← readRelativeList
    (fun o => do
      let dm ←
        if o ≤ dEntry.length then .ok (dEntry.drop o)
        else .error (.outOfBounds "Mesh" o)
      let mh ← readPod "MeshHeader" 116 MeshHeader.ofBytes dm 0
      .ok ({ material := mh.material, vertexOffset := mh.vertexIndex } : Mesh))
    h.meshIndexes
  let name ← fixedStringOfBytes h.name
  .ok { name, ty := h.ty, boundingRadius := h.boundingRadius, meshes
        vertexOffset := tdivI32 h.vertexIndex 48 }

/-- `BodyPartHeader` (src/mdl/raw/mod.rs lines 67-84), 16 bytes. -/
structure BodyPartHeader where
  nameIndex : Int
  modelCount : Int
  base : Int
  modelIndex : Int
deriving DecidableEq, Repr

/-- Field layout of the MDL `BodyPartHeader`. -/
def BodyPartHeader.ofBytes (c : Bytes) : BodyPartHeader :=
  { nameIndex := i32le c 0, modelCount := i32le c 4
    base := i32le c 8, modelIndex := i32le c 12 }

/-- `BodyPartHeader::model_indexes`: the stride is
`size_of::<ModelHeader>() - size_of::<FixedString<0>>()` = 148 - 4 = 144
in the source (`FixedString<0>` wraps a 4-byte length word). -/
def BodyPartHeader.modelIndexes (h : BodyPartHeader) : List Nat :=
  indexRange h.modelIndex h.modelCount 144

/-- Parsed `BodyPart` (src/mdl/mod.rs lines 113-128). -/
structure BodyPart where
  nameIndex : Int
  models : List Model
deriving DecidableEq, Repr

/-- `BodyPart::read`. -/
def BodyPart.read (dEntry : Bytes) (h : BodyPartHeader) : Except ModelError BodyPart := do
  let models ← readRelativeList
    (fun o => do
      let dm ←
        if o ≤ dEntry.length then .ok (dEntry.drop o)
        else .error (.outOfBounds "Model" o)
      let mh ← readPod "ModelHeader" 148 ModelHeader.ofBytes dm 0
      Model.read dm mh)
    h.modelIndexes
  .ok { nameIndex := h.nameIndex, models }

end Mdl

/-! ## MDL reader: top level (src/mdl/mod.rs) -/

namespace Mdl

/-- The parsed `Mdl` value (src/mdl/mod.rs lines 16-34). -/
structure T where
  name : RStr
  header : StudioHeader
  header2 : Option StudioHeader2
  bones : List Bone
  bodyParts : List BodyPart
  textures : List TextureInfo
  texturePaths : List RStr
  skinTable : List Nat
  surfaceProp : RStr
  keyValues : Option RStr
  localAnimations : List AnimationDescription
  animationBlockSource : RStr
  animationBlocks : List AnimationBlock
  poseParameters : List PoseParameterDescription
  attachments : List StudioAttachment
  hitBoxes : List HitBoxSet

/-- The `data.get(index..)` guard shared by every record walk of
`Mdl::read`. -/
def entrySlice (name : String) (d : Bytes) (off : Nat) : Except ModelError Bytes :=
  if off ≤ d.length then .ok (d.drop off) else .error (.outOfBounds name off)

/-- The optional secondary-header step of `Mdl::read`:
`header.header2_index().map(|i| read_single(data, i)).transpose()?`. -/
def readHeader2Opt (d : Bytes) (idx? : Option Nat) : PResult (Option StudioHeader2) :=
  match idx? with
  | some idx => (PResult.lift (StudioHeader2.readSingle d idx)).map some
  | none => .ok none

/-- `Mdl::read` (src/mdl/mod.rs lines 37-110), step by step and in the
source's evaluation (and therefore error/panic) order.  The only
panicking sub-parser is `AnimationDescription::read` (its
`animation_block != 0` arm is a `todo!`).  The `key_value_size` field
consulted for the key-value block is the header word at byte offset 316
(named `key_value_count` in the header struct).  The two infallible
in-place updates of the source — distributing the texture search paths
over the parsed textures, and applying each animation's owning bone
data (`set_scales`) — are applied in the final record. -/
def read (d : Bytes) : PResult T := do
  let header ← PResult.lift (StudioHeader.read d)
  let header2 ← readHeader2Opt d header.header2Index
  let name ← PResult.lift (fixedStringOfBytes header.name)
  let textures ← PResult.lift (readRelativeList
    (fun o => do
      let de ← entrySlice "TextureInfo" d o
      let th ← readPod "MeshTexture" 64 MeshTexture.ofBytes de 0
      TextureInfo.read de th)
    header.textureIndexes)
  let textureDirIndexes ← PResult.lift (readRelativeList
    (fun o => readPod "u32" 4 (fun c => u32le c 0) d o)
    header.textureDirIndexes)
  let texturePaths ← PResult.lift (readRelativeList
    (fun o => do
      let de ← entrySlice "String" d o
      let p ← stringRead de
      .ok (replaceBackslashes p))
    textureDirIndexes)
  let skinTable ← PResult.lift (readRelativeList
    (fun o => readPod "u16" 2 (fun c => u16le c 0) d o)
    header.skinReferenceIndexes)
  let bones ← PResult.lift (readRelativeList
    (fun o => do
      let de ← entrySlice "Bone" d o
      let bh ← readPod "BoneHeader" 216 BoneHeader.ofBytes de 0
      Bone.read de bh)
    header.boneIndexes)
  let surfaceProp ← PResult.lift (readCString d header.surfacePropIndex)
  let keyValues ←
    if 0 < header.keyValueCount then
      (PResult.lift (readCString d header.keyValueIndex)).map some
    else .ok none
  let localAnimations ← readRelativeListP
    (fun o => do
      let de ← PResult.lift (entrySlice "AnimationDescription" d o)
      let ah ← PResult.lift
        (readPod "AnimationDescriptionHeader" 100 AnimationDescriptionHeader.ofBytes de 0)
      AnimationDescription.read de ah)
    header.localAnimationIndexes
  let animationBlockSource ← PResult.lift (readCString d header.animBlocksNameIndex)
  let animationBlocks ← PResult.lift (readRelativeList
    (fun o => readPod "AnimationBlock" 8 AnimationBlock.ofBytes d o)
    header.animationBlockIndexes)
  let poseParameters ← PResult.lift (readRelativeList
    (fun o => do
      let de ← entrySlice "PoseParameterDescription" d o
      let ph ← readPod "PoseParameterDescriptionHeader" 20
        PoseParameterDescriptionHeader.ofBytes de 0
      PoseParameterDescription.read de ph)
    header.localPoseParamIndexes)
  let attachments ← PResult.lift (readRelativeList
    (fun o => do
      let de ← entrySlice "StudioAttachment" d o
      let ah ← readPod "StudioAttachmentHeader" 92 StudioAttachmentHeader.ofBytes de 0
      StudioAttachment.read de ah)
    header.attachmentIndexes)
  let hitBoxes ← PResult.lift (readRelativeList
    (fun o => do
      let de ← entrySlice "HitBoxSet" d o
      let hh ← readPod "HitBoxSetHeader" 12 HitBoxSetHeader.ofBytes de 0
      HitBoxSet.read de hh)
    header.hitboxIndexes)
  let bodyParts ← PResult.lift (readRelativeList
    (fun o => do
      let de ← entrySlice "BodyPart" d o
      let bh ← readPod "BodyPartHeader" 16 BodyPartHeader.ofBytes de 0
      BodyPart.read de bh)
    header.bodyPartIndexes)
  .ok { name, header, header2, bones, bodyParts
        textures := textures.map (fun t => { t with searchPaths := texturePaths })
        texturePaths, skinTable, surfaceProp, keyValues
        localAnimations := localAnimations.map (fun desc =>
          { desc with animations := desc.animations.map (fun a =>
              match bones[a.bone]? with
              | some bone => a.applyBoneData bone
              | none => a) })
        animationBlockSource, animationBlocks, poseParameters
        attachments, hitBoxes }

end Mdl

/-! ## Model assembler (src/lib.rs) -/

/-- The assembled `Model` (src/lib.rs lines 25-30). -/
structure Model where
  mdl : Mdl.T
  vtx : Vtx.T
  vvd : Vvd.T

/-- `Model::from_parts`. -/
def Model.fromParts (mdl : Mdl.T) (vtx : Vtx.T) (vvd : Vvd.T) : Model :=
  { mdl, vtx, vvd }

/-- `Model::vertices`: a borrow of the VVD-derived array. -/
def Model.vertices (m : Model) : List Vvd.Vertex := m.vvd.vertices

/-- `Model::tangents`. -/
def Model.tangents (m : Model) : List (List Nat) := m.vvd.tangents

/-- `Model::bounding_box` (src/lib.rs lines 120-126): the function
returns the two hull vectors stored in the MDL header (the header field
written `bounding_box[0]` / `bounding_box[1]` in src/lib.rs is the
64-byte-offset pair `hull_min`/`hull_max` at bytes 104-127 of the wire
header).  No vertex is consulted. -/
def Model.boundingBox (m : Model) : List Nat × List Nat :=
  (m.mdl.header.hullMin, m.mdl.header.hullMax)

/-- Componentwise box membership of a vertex position, with the raw
`f32` patterns compared at their numeric values: the formalisation of
"every vertex position lies inside the returned box componentwise". -/
def insideBox (bbMin bbMax pos : List Nat) : Prop :=
  ∀ i < 3, f32ToRat (bbMin.getD i 0) ≤ f32ToRat (pos.getD i 0) ∧
    f32ToRat (pos.getD i 0) ≤ f32ToRat (bbMax.getD i 0)

/-! ## Concrete inputs used by the theorems below -/

/-- `mdlParents d`: the parent indices of the bones of a successfully
parsed MDL (empty on error or panic). -/
def mdlParents (d : Bytes) : List Int :=
  match Mdl.read d with
  | .ok m => m.bones.map (fun b => b.parent)
  | _ => []

/-- A 508-byte MDL file: a zero header except `local_animation_count = 1`
at byte 156+24 = 180 and `local_animation_offset = 408`, followed by a
100-byte animation-description record whose `animation_block` word (byte
52 of the record) is 1. -/
def c1bytes : Bytes :=
  zeros 180 ++ le32 1 ++ le32 408 ++ zeros 220 ++ zeros 52 ++ le32 1 ++ zeros 44

/-- A 624-byte MDL file: a zero header except `bone_count = 1` (byte 156)
and `bone_offset = 408` (byte 160), followed by a 216-byte bone record
whose `parent` word (bytes 412-415) is 5. -/
def c7bytes : Bytes :=
  zeros 156 ++ le32 1 ++ le32 408 ++ zeros 244 ++ zeros 4 ++ le32 5 ++ zeros 208

/-- An all-zero 408-byte MDL header: parses with empty tables and a hull
box of `(0,0,0)-(0,0,0)`. -/
def c4mdl : Bytes := zeros 408

/-- An all-zero 36-byte VTX header: parses with no body parts. -/
def c4vtx : Bytes := zeros 36

/-- A 128-byte VVD file with one LOD, one vertex whose position is
`(1.0, 2.0, 3.0)`, no fix-ups, one zero tangent. -/
def c4vvd : Bytes :=
  zeros 12 ++ le32 1 ++ le32 1 ++ zeros 28 ++ le32 0 ++ le32 0 ++ le32 64 ++ le32 112 ++
  (zeros 16 ++ le32 0x3F800000 ++ le32 0x40000000 ++ le32 0x40400000 ++ zeros 20) ++ zeros 16

/-- A 204-byte VVD file with two source vertices (tagged 1 and 2 in
their first byte), two tangents (tagged 3 and 4), and one fix-up with
`lod = 5`, `source_vertex_id = 0`, `vertex_count = 2`. -/
def c5bytes : Bytes :=
  zeros 12 ++ le32 1 ++ le32 2 ++ zeros 28 ++ le32 1 ++ le32 64 ++ le32 76 ++ le32 172 ++
  (le32 5 ++ le32 0 ++ le32 2) ++
  ([bqq 1] ++ zeros 47) ++ ([bqq 2] ++ zeros 47) ++
  ([bqq 3] ++ zeros 15) ++ ([bqq 4] ++ zeros 15)

/-- Decidable equality of read outcomes, for evaluating concrete
parses. -/
instance {ε α : Type} [DecidableEq ε] [DecidableEq α] : DecidableEq (Except ε α)
  | .error e1, .error e2 =>
    if h : e1 = e2 then .isTrue (h ▸ rfl)
    else .isFalse (fun hc => h (by cases hc; rfl))
  | .error _, .ok _ => .isFalse (fun hc => Except.noConfusion hc)
  | .ok _, .error _ => .isFalse (fun hc => Except.noConfusion hc)
  | .ok a1, .ok a2 =>
    if h : a1 = a2 then .isTrue (h ▸ rfl)
    else .isFalse (fun hc => h (by cases hc; rfl))

/-- The header of `c5bytes` as `Vvd::read` decodes it. -/
def c5header : Vvd.Header :=
  { id := 0, version := 0, checksum := [0, 0, 0, 0], lodCount := 1
    lodVertexCount := [2, 0, 0, 0, 0, 0, 0, 0]
    fixupCount := 1, fixupIndex := 64, vertexIndex := 76, tangentIndex := 172 }

/-- The first source vertex of `c5bytes` (tag byte 1). -/
def c5v1 : Vvd.Vertex :=
  { boneWeights := { weight := [1, 0, 0], bone := [0, 0, 0], boneCount := 0 }
    position := [0, 0, 0], normal := [0, 0, 0], textureCoordinates := [0, 0] }

/-- The second source vertex of `c5bytes` (tag byte 2). -/
def c5v2 : Vvd.Vertex :=
  { boneWeights := { weight := [2, 0, 0], bone := [0, 0, 0], boneCount := 0 }
    position := [0, 0, 0], normal := [0, 0, 0], textureCoordinates := [0, 0] }

/-- The first source tangent of `c5bytes` (tag byte 3). -/
def c5t1 : List Nat := [3, 0, 0, 0]

/-- The second source tangent of `c5bytes` (tag byte 4). -/
def c5t2 : List Nat := [4, 0, 0, 0]

/-- The single fix-up of `c5bytes`: `lod = 5` (above the requested
LOD 0), covering both source vertices. -/
def c5f : Vvd.VertexFileFixup :=
  { lod := 5, sourceVertexId := 0, vertexCount := 2 }

/-- The value `Vvd::read` produces for `c5bytes`. -/
def c5T : Vvd.T :=
  { header := c5header, vertices := [c5v1, c5v2], tangents := [c5t1, c5t2] }

/-- The 76-byte prefix of the saturating-fix-up VVD file: header with
`lod_count = 1`, `lod_vertex_count[0] = 2147483647 = i32::MAX`,
one fix-up (at byte 64) with `source_vertex_id = 2147483645` and
`vertex_count = 3`, vertex and tangent data both starting at byte 76. -/
def c8pre : Bytes :=
  zeros 12 ++ le32 1 ++ le32 2147483647 ++ zeros 28 ++ le32 1 ++ le32 64 ++
  le32 76 ++ le32 76 ++ le32 0 ++ le32 2147483645 ++ le32 3

/-- Payload size of the saturating-fix-up VVD file: `i32::MAX` 48-byte
vertex records (the 16-byte tangent records are read from the same
all-zero region). -/
def c8N : Nat := 48 * 2147483647

/-- A VVD file with `i32::MAX` source vertices whose single fix-up has
`source_vertex_id + vertex_count = 2147483648 > i32::MAX`, so
`saturating_add` clamps the copy range. -/
def c8giant : Bytes := c8pre ++ List.replicate c8N 0

/-- The header of `c8giant` as `Vvd::read` decodes it. -/
def c8header : Vvd.Header :=
  { id := 0, version := 0, checksum := [0, 0, 0, 0], lodCount := 1
    lodVertexCount := [2147483647, 0, 0, 0, 0, 0, 0, 0]
    fixupCount := 1, fixupIndex := 64, vertexIndex := 76, tangentIndex := 76 }

/-- The all-zero 48-byte vertex record of `c8giant`. -/
def c8v0 : Vvd.Vertex :=
  { boneWeights := { weight := [0, 0, 0], bone := [0, 0, 0], boneCount := 0 }
    position := [0, 0, 0], normal := [0, 0, 0], textureCoordinates := [0, 0] }

/-- The all-zero 16-byte tangent record of `c8giant`. -/
def c8t0 : List Nat := [0, 0, 0, 0]

/-- The single fix-up of `c8giant`. -/
def c8fixup : Vvd.VertexFileFixup :=
  { lod := 0, sourceVertexId := 2147483645, vertexCount := 3 }


/-! ## General lemmas about the readers -/

set_option maxRecDepth 1000000

/-- Bind on `Except` succeeds exactly when both steps do. -/
theorem exceptBind_eq_ok {α β : Type} {x : Except ModelError α}
    {f : α → Except ModelError β} {b : β} :
    (x >>= f) = .ok b ↔ ∃ a, x = .ok a ∧ f a = .ok b := by
  cases x <;> simp [Bind.bind, Except.bind]

/-- Bind on `PResult` succeeds exactly when both steps do. -/
theorem presBind_eq_ok {α β : Type} {x : PResult α} {f : α → PResult β} {b : β} :
    (x >>= f) = .ok b ↔ ∃ a, x = .ok a ∧ f a = .ok b := by
  cases x <;> simp [Bind.bind, PResult.bind]

/-- Lifting preserves success. -/
theorem lift_eq_ok {α : Type} {x : Except ModelError α} {a : α} :
    PResult.lift x = .ok a ↔ x = .ok a := by
  cases x <;> simp [PResult.lift]

/-- Every `i32` decode lies in the `i32` range. -/
theorem toI32_range (n : Nat) : -(2 ^ 31) ≤ toI32 n ∧ toI32 n < 2 ^ 31 := by
  unfold toI32
  split <;> omega

/-- Every element of a successful `read_relative` comes from a
successful single read. -/
theorem readRelativeList_mem {α : Type} {read1 : Nat → Except ModelError α}
    {offs : List Nat} {l : List α} (h : readRelativeList read1 offs = .ok l) :
    ∀ a ∈ l, ∃ o, read1 o = .ok a := by
  induction offs generalizing l with
  | nil => rw [readRelativeList] at h; cases h; intro a ha; cases ha
  | cons o rest ih =>
    rw [readRelativeList] at h
    rw [exceptBind_eq_ok] at h
    obtain ⟨a0, ha0, h⟩ := h
    rw [exceptBind_eq_ok] at h
    obtain ⟨as0, has0, h⟩ := h
    cases h
    intro a ha
    cases ha with
    | head => exact ⟨o, ha0⟩
    | tail _ hmem => exact ih has0 a hmem

/-- A successful `read_relative` returns one record per offset. -/
theorem readRelativeList_length {α : Type} {read1 : Nat → Except ModelError α}
    {offs : List Nat} {l : List α} (h : readRelativeList read1 offs = .ok l) :
    l.length = offs.length := by
  induction offs generalizing l with
  | nil => rw [readRelativeList] at h; cases h; rfl
  | cons o rest ih =>
    rw [readRelativeList] at h
    rw [exceptBind_eq_ok] at h
    obtain ⟨a0, ha0, h⟩ := h
    rw [exceptBind_eq_ok] at h
    obtain ⟨as0, has0, h⟩ := h
    cases h
    simp [ih has0]

/-- When every offset reads the same record, `read_relative` returns
that record once per offset. -/
theorem readRelativeList_const {α : Type} {read1 : Nat → Except ModelError α}
    {offs : List Nat} {v : α} (h : ∀ o ∈ offs, read1 o = .ok v) :
    readRelativeList read1 offs = .ok (List.replicate offs.length v) := by
  induction offs with
  | nil => rfl
  | cons o rest ih =>
    rw [readRelativeList, h o (by simp)]
    rw [show (Except.ok v >>= fun a => (readRelativeList read1 rest >>= fun as => .ok (a :: as)) :
      Except ModelError (List α)) = (readRelativeList read1 rest >>= fun as => .ok (v :: as)) from rfl]
    rw [ih (fun o ho => h o (by simp [ho]))]
    rfl

/-- Bind after a successful step reduces. -/
theorem exceptOk_bind {α β : Type} (a : α) (f : α → Except ModelError β) :
    (Except.ok a >>= f) = f a := rfl

/-- A successful `readPod` returns the decoded in-range chunk. -/
theorem readPod_ok {α : Type} {name : String} {size : Nat} {f : Bytes → α}
    {d : Bytes} {off : Nat} {a : α} (h : readPod name size f d off = .ok a) :
    a = f (chunk d off size) ∧ off + size ≤ d.length := by
  rw [readPod] at h
  split at h
  · split at h
    · cases h; exact ⟨rfl, by assumption⟩
    · cases h
  · cases h

/-- A failed `readPod` produces only its `Eof` or `OutOfBounds` error. -/
theorem readPod_error {α : Type} {name : String} {size : Nat} {f : Bytes → α}
    {d : Bytes} {off : Nat} {e : ModelError} (h : readPod name size f d off = .error e) :
    e = .eof size ∨ e = .outOfBounds name off := by
  rw [readPod] at h
  split at h
  · split at h
    · cases h
    · cases h; exact Or.inl rfl
  · cases h; exact Or.inr rfl

/-- A successful `source.get(lo..hi)` slice: its bounds and content. -/
theorem sliceGet_ok {α : Type} {xs : List α} {lo hi : Nat} {name : String} {s : List α}
    (h : Vvd.sliceGet xs lo hi name = .ok s) :
    lo ≤ hi ∧ hi ≤ xs.length ∧ s = (xs.drop lo).take (hi - lo) ∧ s.length = hi - lo := by
  rw [Vvd.sliceGet] at h
  split at h
  · cases h
    refine ⟨by omega, by omega, rfl, ?_⟩
    rw [List.length_take, List.length_drop]
    omega
  · cases h

/-- Anatomy of a successful fix-up pass: the fix-up records read
successfully, vertex and tangent outputs have the same length, that
length is the sum of the per-fix-up slice widths, and every vertex of
every fix-up's source slice — whatever its `lod` — is in the output. -/
theorem applyFixups_spec {d : Bytes} {sv : List Vvd.Vertex} {st : List (List Nat)}
    {offs : List Nat} {vs : List Vvd.Vertex} {ts : List (List Nat)}
    (h : Vvd.applyFixups d sv st offs = .ok (vs, ts)) :
    ∃ fs, readRelativeList (Vvd.readFixup d) offs = .ok fs ∧
      ts.length = vs.length ∧
      vs.length = (fs.map (fun f => f.toIdx - f.fromIdx)).sum ∧
      ∀ f ∈ fs, f.fromIdx ≤ f.toIdx ∧ f.toIdx ≤ sv.length ∧
        ∀ v ∈ (sv.drop f.fromIdx).take (f.toIdx - f.fromIdx), v ∈ vs := by
  induction offs generalizing vs ts with
  | nil =>
    rw [Vvd.applyFixups] at h
    cases h
    exact ⟨[], rfl, rfl, rfl, by intro f hf; cases hf⟩
  | cons o rest ih =>
    rw [Vvd.applyFixups] at h
    rw [exceptBind_eq_ok] at h
    obtain ⟨f0, hf0, h⟩ := h
    rw [exceptBind_eq_ok] at h
    obtain ⟨s1, hs1, h⟩ := h
    rw [exceptBind_eq_ok] at h
    obtain ⟨s2, hs2, h⟩ := h
    rw [exceptBind_eq_ok] at h
    obtain ⟨p, hp, h⟩ := h
    obtain ⟨vr, tr⟩ := p
    cases h
    obtain ⟨fs', hfs', hlen, hsum, hmem⟩ := ih hp
    obtain ⟨hlo1, hhi1, hseq1, hslen1⟩ := sliceGet_ok hs1
    obtain ⟨hlo2, hhi2, hseq2, hslen2⟩ := sliceGet_ok hs2
    refine ⟨f0 :: fs', ?_, ?_, ?_, ?_⟩
    · rw [readRelativeList, hf0, exceptOk_bind, hfs', exceptOk_bind]
    · simp only [List.length_append]
      omega
    · simp only [List.length_append, List.map_cons, List.sum_cons]
      omega
    · intro f hf
      cases hf with
      | head =>
        refine ⟨hlo1, hhi1, ?_⟩
        intro v hv
        rw [← hseq1] at hv
        exact List.mem_append_left _ hv
      | tail _ hmem2 =>
        obtain ⟨a, b, c⟩ := hmem f hmem2
        exact ⟨a, b, fun v hv => List.mem_append_right _ (c v hv)⟩

/-- Anatomy of a successful `Vvd::read`: header and both source arrays
read successfully, and the output is either the fix-up pass over the
*entire* fix-up table (when `fixup_count > 0`) or the source arrays
unchanged. -/
theorem vvdRead_ok {d : Bytes} {r : Vvd.T} (h : Vvd.read d = .ok r) :
    ∃ sv st, Vvd.Header.read d = .ok r.header ∧
      Vvd.readSourceVertices d r.header = .ok sv ∧
      Vvd.readSourceTangents d r.header = .ok st ∧
      ((r.header.hasFixups = true ∧
          Vvd.applyFixups d sv st r.header.fixupIndexes = .ok (r.vertices, r.tangents)) ∨
        (r.header.hasFixups = false ∧ r.vertices = sv ∧ r.tangents = st)) := by
  rw [Vvd.read] at h
  rw [exceptBind_eq_ok] at h
  obtain ⟨hd, hhd, h⟩ := h
  rw [exceptBind_eq_ok] at h
  obtain ⟨sv, hsv, h⟩ := h
  rw [exceptBind_eq_ok] at h
  obtain ⟨st, hst, h⟩ := h
  by_cases hfix : hd.hasFixups
  · rw [if_pos hfix] at h
    rw [exceptBind_eq_ok] at h
    obtain ⟨p, hp, h⟩ := h
    obtain ⟨vv, tt⟩ := p
    cases h
    exact ⟨sv, st, hhd, hsv, hst, Or.inl ⟨hfix, hp⟩⟩
  · rw [if_neg hfix] at h
    cases h
    exact ⟨sv, st, hhd, hsv, hst, Or.inr ⟨by simpa using hfix, rfl, rfl⟩⟩

/-- A successfully read bone carries its header's parent field
verbatim. -/
theorem boneRead_parent {de : Bytes} {bh : Mdl.BoneHeader} {b : Mdl.Bone}
    (h : Mdl.Bone.read de bh = .ok b) : b.parent = bh.parent := by
  rw [Mdl.Bone.read] at h
  rw [exceptBind_eq_ok] at h
  obtain ⟨pb, _, h⟩ := h
  rw [exceptBind_eq_ok] at h
  obtain ⟨pr, _, h⟩ := h
  rw [exceptBind_eq_ok] at h
  obtain ⟨nm, _, h⟩ := h
  rw [exceptBind_eq_ok] at h
  obtain ⟨sp, _, h⟩ := h
  cases h
  rfl

/-- Anatomy of a successful `Mdl::read`: the bones come from the
per-offset bone reads over the header's bone table, with no
cross-bone validation step anywhere in the chain. -/
theorem mdlRead_ok_bones {d : Bytes} {m : Mdl.T} (h : Mdl.read d = .ok m) :
    ∃ hd, Mdl.StudioHeader.read d = .ok hd ∧
      readRelativeList
        (fun o => do
          let de ← Mdl.entrySlice "Bone" d o
          let bhh ← readPod "BoneHeader" 216 Mdl.BoneHeader.ofBytes de 0
          Mdl.Bone.read de bhh)
        hd.boneIndexes = .ok m.bones := by
  rw [Mdl.read] at h
  rw [presBind_eq_ok] at h
  obtain ⟨hd, hhd, h⟩ := h
  rw [presBind_eq_ok] at h
  obtain ⟨h2, _, h⟩ := h
  rw [presBind_eq_ok] at h
  obtain ⟨nm, _, h⟩ := h
  rw [presBind_eq_ok] at h
  obtain ⟨tex, _, h⟩ := h
  rw [presBind_eq_ok] at h
  obtain ⟨tdi, _, h⟩ := h
  rw [presBind_eq_ok] at h
  obtain ⟨tp, _, h⟩ := h
  rw [presBind_eq_ok] at h
  obtain ⟨skin, _, h⟩ := h
  rw [presBind_eq_ok] at h
  obtain ⟨bones, hbones, h⟩ := h
  rw [presBind_eq_ok] at h
  obtain ⟨sp, _, h⟩ := h
  split at h <;>
  · rw [presBind_eq_ok] at h
    obtain ⟨kv, _, h⟩ := h
    rw [presBind_eq_ok] at h
    obtain ⟨la, _, h⟩ := h
    rw [presBind_eq_ok] at h
    obtain ⟨abs0, _, h⟩ := h
    rw [presBind_eq_ok] at h
    obtain ⟨ab, _, h⟩ := h
    rw [presBind_eq_ok] at h
    obtain ⟨pp, _, h⟩ := h
    rw [presBind_eq_ok] at h
    obtain ⟨att, _, h⟩ := h
    rw [presBind_eq_ok] at h
    obtain ⟨hb, _, h⟩ := h
    rw [presBind_eq_ok] at h
    obtain ⟨bp, _, h⟩ := h
    cases h
    rw [lift_eq_ok] at hbones hhd
    exact ⟨hd, hhd, hbones⟩

/-- Fuel adequacy for the ``FrameValues::get`` chain walk: once the
fuel exceeds the measure `d.length + index` (plus one when the entry
`total` is zero), the fuel-limited walk agrees with the unlimited one
— so the recursion depth is bounded by that measure, though *not* by
`d.length / 2`: a node with `valid = 255` re-reads at offset 0 and
consumes no bytes, only frames.  Every error the walk can produce is
`Eof` or `OutOfBounds`. -/
theorem frameValuesGetFuel_adequate (d : Bytes) (valid total index : Nat) (fuel : Nat)
    (hfuel : d.length + index + (if total = 0 then 1 else 0) < fuel) :
    Mdl.frameValuesGetFuel fuel d valid total index =
      some (Mdl.frameValuesGet d valid total index) ∧
    ∀ e, Mdl.frameValuesGet d valid total index = .error e →
      e = .eof 2 ∨ ∃ s off, e = .outOfBounds s off := by
  induction fuel generalizing d valid total index with
  | zero => omega
  | succ fuel ih =>
    by_cases h1 : total ≤ index
    · by_cases h2 : (valid + 1) % 2 ^ 8 * 2 ≤ d.length
      · by_cases h3 : (valid + 1) % 2 ^ 8 * 2 + 2 ≤ d.length
        · by_cases h4 : byteD d ((valid + 1) % 2 ^ 8 * 2 + 1) = 0
          · rw [Mdl.frameValuesGet, Mdl.frameValuesGetFuel]
            rw [dif_pos h1, dif_pos h2, dif_pos h3, dif_pos h4]
            rw [if_pos h1, if_pos h2, if_pos h3, if_pos h4]
            exact ⟨rfl, by intro e he; cases he⟩
          · have hmeas : (d.drop ((valid + 1) % 2 ^ 8 * 2)).length + (index - total) +
                (if byteD d ((valid + 1) % 2 ^ 8 * 2 + 1) = 0 then 1 else 0) < fuel := by
              rw [if_neg h4, List.length_drop]
              have hoff : (valid + 1) % 2 ^ 8 * 2 = 0 ∨ 2 ≤ (valid + 1) % 2 ^ 8 * 2 := by
                omega
              split_ifs at hfuel <;> rcases hoff with hoff | hoff <;> omega
            have hrec := ih (d.drop ((valid + 1) % 2 ^ 8 * 2))
              (byteD d ((valid + 1) % 2 ^ 8 * 2))
              (byteD d ((valid + 1) % 2 ^ 8 * 2 + 1)) (index - total) hmeas
            rw [Mdl.frameValuesGet, Mdl.frameValuesGetFuel]
            rw [dif_pos h1, dif_pos h2, dif_pos h3, dif_neg h4]
            rw [if_pos h1, if_pos h2, if_pos h3, if_neg h4]
            exact hrec
        · rw [Mdl.frameValuesGet, Mdl.frameValuesGetFuel]
          rw [dif_pos h1, dif_pos h2, dif_neg h3]
          rw [if_pos h1, if_pos h2, if_neg h3]
          refine ⟨rfl, ?_⟩
          intro e he
          cases he
          exact Or.inl rfl
      · rw [Mdl.frameValuesGet, Mdl.frameValuesGetFuel]
        rw [dif_pos h1, dif_neg h2]
        rw [if_pos h1, if_neg h2]
        refine ⟨rfl, ?_⟩
        intro e he
        cases he
        exact Or.inr ⟨_, _, rfl⟩
    · rw [Mdl.frameValuesGet, Mdl.frameValuesGetFuel]
      rw [dif_neg h1, if_neg h1]
      refine ⟨rfl, ?_⟩
      intro e he
      rcases readPod_error he with h | h
      · exact Or.inl h
      · exact Or.inr ⟨_, _, h⟩

/-- The prefix of the saturating VVD file is 76 bytes. -/
theorem c8pre_length : c8pre.length = 76 := by decide

/-- Total length of the saturating VVD file. -/
theorem c8giant_length : c8giant.length = 76 + c8N := by
  rw [c8giant, List.length_append, List.length_replicate, c8pre_length]

/-- The header of the saturating VVD file decodes as stated. -/
theorem c8_header_read : Vvd.Header.read c8giant = .ok c8header := by
  rw [Vvd.Header.read, if_pos (by rw [c8giant_length]; rw [c8N]; omega)]
  have hchunk : chunk c8giant 0 64 = c8pre.take 64 := by
    rw [chunk, c8giant, List.drop_zero,
      List.take_append_of_le_length (by rw [c8pre_length]; omega)]
  rw [hchunk]
  decide

/-- The single fix-up of the saturating VVD file decodes as stated. -/
theorem c8_fixup_read : Vvd.readFixup c8giant 64 = .ok c8fixup := by
  rw [Vvd.readFixup, readPod,
    if_pos (by rw [c8giant_length]; rw [c8N]; omega),
    if_pos (by rw [c8giant_length]; rw [c8N]; omega)]
  have hchunk : chunk c8giant 64 12 = (c8pre.drop 64).take 12 := by
    rw [chunk, c8giant, List.drop_append_of_le_length (by rw [c8pre_length]; omega),
      List.take_append_of_le_length (by decide)]
  rw [hchunk]
  decide

/-- The fix-up table of the saturating VVD file is the one fix-up. -/
theorem c8_fixups : Vvd.fixupsOf c8giant c8header = .ok [c8fixup] := by
  have hidx : c8header.fixupIndexes = [64] := by decide
  rw [Vvd.fixupsOf, hidx, readRelativeList, c8_fixup_read]
  rw [show (Except.ok c8fixup >>= fun a =>
      (readRelativeList (Vvd.readFixup c8giant) [] >>= fun as =>
        Except.ok (a :: as)) : Except ModelError (List Vvd.VertexFileFixup)) =
    Except.ok [c8fixup] from rfl]

/-- Every vertex offset of the saturating VVD file reads the all-zero
vertex. -/
theorem c8_vertex_read : ∀ o ∈ indexRange 76 2147483647 48,
    Vvd.readVertex c8giant o = .ok c8v0 := by
  intro o ho
  rw [indexRange] at ho
  rw [List.mem_map] at ho
  obtain ⟨i, hi, ho⟩ := ho
  rw [List.mem_range] at hi
  rw [show usizeOfInt 2147483647 = 2147483647 from rfl] at hi
  rw [show usizeOfInt 76 = 76 from rfl] at ho
  have hmod : 76 + i * 48 % 2 ^ 64 = 76 + i * 48 := by
    rw [Nat.mod_eq_of_lt (by omega)]
  have ho2 : o = 76 + i * 48 := by
    rw [← ho, hmod, Nat.mod_eq_of_lt (by omega)]
  subst ho2
  rw [Vvd.readVertex, readPod,
    if_pos (by rw [c8giant_length]; rw [c8N]; omega),
    if_pos (by rw [c8giant_length]; rw [c8N]; omega)]
  have hchunk : chunk c8giant (76 + i * 48) 48 = List.replicate 48 0 := by
    rw [chunk, c8giant, ← c8pre_length, List.drop_append,
      List.drop_replicate, List.take_replicate]
    rw [show (48 ⊓ (c8N - i * 48)) = 48 from by rw [c8N]; omega]
  rw [hchunk]
  decide

/-- Every tangent offset of the saturating VVD file reads the all-zero
tangent. -/
theorem c8_tangent_read : ∀ o ∈ indexRange 76 2147483647 16,
    Vvd.readTangent c8giant o = .ok c8t0 := by
  intro o ho
  rw [indexRange] at ho
  rw [List.mem_map] at ho
  obtain ⟨i, hi, ho⟩ := ho
  rw [List.mem_range] at hi
  rw [show usizeOfInt 2147483647 = 2147483647 from rfl] at hi
  rw [show usizeOfInt 76 = 76 from rfl] at ho
  have hmod : 76 + i * 16 % 2 ^ 64 = 76 + i * 16 := by
    rw [Nat.mod_eq_of_lt (by omega)]
  have ho2 : o = 76 + i * 16 := by
    rw [← ho, hmod, Nat.mod_eq_of_lt (by omega)]
  subst ho2
  rw [Vvd.readTangent, readPod,
    if_pos (by rw [c8giant_length]; rw [c8N]; omega),
    if_pos (by rw [c8giant_length]; rw [c8N]; omega)]
  have hchunk : chunk c8giant (76 + i * 16) 16 = List.replicate 16 0 := by
    rw [chunk, c8giant, ← c8pre_length, List.drop_append,
      List.drop_replicate, List.take_replicate]
    rw [show (16 ⊓ (c8N - i * 16)) = 16 from by rw [c8N]; omega]
  rw [hchunk]
  decide

/-- The saturating VVD file's index tables have `i32::MAX` entries. -/
theorem c8_indexRange_length (size : Nat) :
    (indexRange 76 2147483647 size).length = 2147483647 := by
  rw [indexRange, List.length_map, List.length_range]
  rfl

/-- The source vertices of the saturating VVD file. -/
theorem c8_source_vertices : Vvd.readSourceVertices c8giant c8header =
    .ok (List.replicate 2147483647 c8v0) := by
  have hvi : c8header.vertexIndexes 0 = some (indexRange 76 2147483647 48) := rfl
  rw [Vvd.readSourceVertices, hvi]
  show readRelativeList (Vvd.readVertex c8giant) (indexRange 76 2147483647 48) =
    Except.ok (List.replicate 2147483647 c8v0)
  rw [readRelativeList_const c8_vertex_read, c8_indexRange_length]

/-- The source tangents of the saturating VVD file. -/
theorem c8_source_tangents : Vvd.readSourceTangents c8giant c8header =
    .ok (List.replicate 2147483647 c8t0) := by
  have hti : c8header.tangentIndexes 0 = some (indexRange 76 2147483647 16) := rfl
  rw [Vvd.readSourceTangents, hti]
  show readRelativeList (Vvd.readTangent c8giant) (indexRange 76 2147483647 16) =
    Except.ok (List.replicate 2147483647 c8t0)
  rw [readRelativeList_const c8_tangent_read, c8_indexRange_length]

/-- The fix-up pass of the saturating VVD file: the saturated copy
range `2147483645..min(i32::MAX, 2147483648)` yields 2 records, not
the fix-up's `vertex_count = 3`. -/
theorem c8_apply : Vvd.applyFixups c8giant (List.replicate 2147483647 c8v0)
    (List.replicate 2147483647 c8t0) [64] =
    .ok (List.replicate 2 c8v0, List.replicate 2 c8t0) := by
  have hslice : ∀ (α : Type) (v : α) (name : String),
      Vvd.sliceGet (List.replicate 2147483647 v) 2147483645 2147483647 name =
        .ok (List.replicate 2 v) := by
    intro α v name
    rw [Vvd.sliceGet, if_pos (by rw [List.length_replicate]; omega)]
    rw [List.drop_replicate, List.take_replicate]
    rfl
  rw [Vvd.applyFixups, c8_fixup_read, exceptOk_bind]
  rw [show (c8fixup.fromIdx) = 2147483645 from rfl]
  rw [show (c8fixup.toIdx) = 2147483647 from by decide]
  rw [hslice _ c8v0 _, exceptOk_bind]
  rw [hslice _ c8t0 _, exceptOk_bind]
  rfl

/-- `Vvd::read` on the saturating VVD file succeeds with 2 output
vertices and tangents. -/
theorem c8giant_read : Vvd.read c8giant =
    .ok { header := c8header, vertices := List.replicate 2 c8v0,
          tangents := List.replicate 2 c8t0 } := by
  rw [Vvd.read, c8_header_read, exceptOk_bind, c8_source_vertices, exceptOk_bind,
    c8_source_tangents, exceptOk_bind]
  rw [show c8header.hasFixups = true from rfl]
  rw [if_pos rfl]
  rw [show c8header.fixupIndexes = [64] from by decide]
  rw [c8_apply, exceptOk_bind]

/-! ## Claim theorems -/

/-- C1 (code_bug evidence): feeding `Mdl::read` a 508-byte file whose
single animation description has `animation_block = 1` reaches the
`todo!("read animation from animation block")` in
`AnimationDescription::read` and panics instead of returning `Ok` or a
`ModelError`. -/
theorem mdl_panics_on_nonzero_animation_block :
    (Mdl.read c1bytes).isPanicked = true := by
  decide

/-- C2 (code_bug evidence): at the `Quaternion48` with fields
`x_raw = 0`, `y_raw = 35840`, `z_raw = 18432` — decoding to
`x = −1`, `y = 3/32`, `z = 1/8`, sign bit clear, where every `f32`
operation of `calc_w` is exact — the source's
`sqrt(1.0 - ((x·x) - (y·y) - (z·z)))` yields `5/32`, while the
specified `sqrt(max(0, 1 − x² − y² − z²))` yields `0`. -/
theorem quaternion48_w_mismatch :
    Quaternion48.fw ⟨0, 35840, 18432⟩ = 5 / 32 ∧
    specW (Quaternion48.fx ⟨0, 35840, 18432⟩) (Quaternion48.fy ⟨0, 35840, 18432⟩)
      (Quaternion48.fz ⟨0, 35840, 18432⟩) (Quaternion48.wNeg ⟨0, 35840, 18432⟩) = 0 ∧
    (5 / 32 : ℚ) ≠ 0 := by
  have hx : Quaternion48.fx ⟨0, 35840, 18432⟩ = -1 := by
    norm_num [Quaternion48.fx]
  have hy : Quaternion48.fy ⟨0, 35840, 18432⟩ = 3 / 32 := by
    norm_num [Quaternion48.fy]
  have hz : Quaternion48.fz ⟨0, 35840, 18432⟩ = 1 / 8 := by
    norm_num [Quaternion48.fz]
  have hw : Quaternion48.wNeg ⟨0, 35840, 18432⟩ = false := by decide
  have hnum : ((25 : ℚ) / 1024).num = 25 := by norm_num
  have hden : ((25 : ℚ) / 1024).den = 1024 := by norm_num
  have hsqrt : ratSqrt (25 / 1024) = 5 / 32 := by
    rw [ratSqrt, if_neg (by norm_num), hnum, hden]
    rw [show (25 : Int).toNat = 25 from rfl,
      show natSqrtLinear 25 = 5 from by decide,
      show natSqrtLinear 1024 = 32 from by decide]
    norm_num
  refine ⟨?_, ?_, by norm_num⟩
  · rw [Quaternion48.fw, calcW, hx, hy, hz, hw]
    rw [show (1 : ℚ) - (-1 * -1 - 3 / 32 * (3 / 32) - 1 / 8 * (1 / 8)) = 25 / 1024 by norm_num]
    rw [hsqrt]
    norm_num
  · rw [specW, hx, hy, hz, hw]
    rw [show max 0 ((1 : ℚ) - -1 * -1 - 3 / 32 * (3 / 32) - 1 / 8 * (1 / 8)) = 0 by
      rw [max_eq_left] <;> norm_num]
    rw [ratSqrt, if_pos le_rfl]
    norm_num

/-- C3 (code_bug evidence): a `TRI_STRIP` strip over index range `0..4`
expands to 4 triangles (12 indices, including the degenerate `[1,1,2]`,
`[3,3,4]` and reads past the range end), not the
`3 × max(0, 4 − 2) = 6` indices the claim states; a `TRI_LIST` strip
over `0..4` expands to 2 triangles (6 indices, reading past the range
end), not `3 × (4 / 3) = 3`. -/
theorem strip_triangle_counts_mismatch :
    Vtx.Strip.triangles ⟨⟨0, 0⟩, 2, ⟨0, 4⟩⟩ = [[0, 1, 2], [1, 1, 2], [2, 3, 4], [3, 3, 4]] ∧
    Vtx.Strip.triangles ⟨⟨0, 0⟩, 1, ⟨0, 4⟩⟩ = [[0, 1, 2], [3, 4, 5]] ∧
    3 * (Vtx.Strip.triangles ⟨⟨0, 0⟩, 2, ⟨0, 4⟩⟩).length ≠ 3 * max 0 (4 - 2) ∧
    3 * (Vtx.Strip.triangles ⟨⟨0, 0⟩, 1, ⟨0, 4⟩⟩).length ≠ 3 * (4 / 3) := by
  decide

/-- C4 counterexample: the model assembled from an all-zero MDL header
(hull box `(0,0,0)-(0,0,0)`), an empty VTX and a VVD holding one vertex
at position `(1.0, 2.0, 3.0)` parses successfully, `bounding_box()`
returns the zero box, and the vertex position lies outside it
componentwise. -/
theorem boundingBox_excludes_vertex_cex :
    (match Mdl.read c4mdl, Vtx.read c4vtx, Vvd.read c4vvd with
      | .ok m, .ok t, .ok v =>
          some ((Model.fromParts m t v).boundingBox,
            (Model.fromParts m t v).vertices.map (fun vv => vv.position))
      | _, _, _ => none)
      = some (([0, 0, 0], [0, 0, 0]), [[0x3F800000, 0x40000000, 0x40400000]]) ∧
    ¬ insideBox [0, 0, 0] [0, 0, 0] [0x3F800000, 0x40000000, 0x40400000] := by
  constructor
  · decide
  · intro h
    have h0 := (h 0 (by norm_num)).2
    rw [show ([0x3F800000, 0x40000000, 0x40400000] : List Nat).getD 0 0 = 0x3F800000 from rfl,
      show ([0, 0, 0] : List Nat).getD 0 0 = 0 from rfl] at h0
    norm_num [f32ToRat] at h0

/-- C4 (amended): `Model::bounding_box` returns exactly the hull pair
stored in the MDL header and is independent of the model's vertex
data. -/
theorem boundingBox_returns_header_hull (mdl : Mdl.T) (vtx : Vtx.T) (vvd vvd2 : Vvd.T) :
    (Model.fromParts mdl vtx vvd).boundingBox = (mdl.header.hullMin, mdl.header.hullMax) ∧
    (Model.fromParts mdl vtx vvd).boundingBox = (Model.fromParts mdl vtx vvd2).boundingBox :=
  ⟨rfl, rfl⟩

/-- C6 counterexample: a one-frame animated position track holding
`(1,2,3)` queried at frame 1 returns `Vector::default()` — not the
stored value for the clamped frame 0 as the claim states. -/
theorem positionData_no_clamp_cex :
    (Mdl.PositionData.positionValues [⟨1, 2, 3⟩]).position 1 = Vector.default ∧
    (Mdl.PositionData.positionValues [⟨1, 2, 3⟩]).position 1 ≠ (⟨1, 2, 3⟩ : Vector) ∧
    (Mdl.PositionData.positionValues [⟨1, 2, 3⟩]).position 0 = (⟨1, 2, 3⟩ : Vector) := by
  refine ⟨rfl, ?_, rfl⟩
  intro h
  rw [show (Mdl.PositionData.positionValues [⟨1, 2, 3⟩]).position 1 = Vector.default from rfl] at h
  have := congrArg Vector.x h
  norm_num [Vector.default] at this

/-- C7 counterexample: the 624-byte MDL of `c7bytes` parses successfully
with a single bone whose parent index is 5, violating
`parent ∈ [−1, i−1] = {−1}` for bone index `i = 0`: the parser performs
no validation of parent indices. -/
theorem bone_parent_unvalidated_cex :
    mdlParents c7bytes = [5] ∧ ¬ (-1 ≤ (5 : Int) ∧ (5 : Int) ≤ 0 - 1) := by
  constructor
  · decide
  · intro h
    omega

/-- C9 counterexample: `Quaternion::default()` is `(1,0,0,0)`, not the
identity `(0,0,0,1)` the claim states. -/
theorem quaternion_default_not_identity_cex :
    Quaternion.default ≠ Quaternion.identity ∧ Quaternion.default = ⟨1, 0, 0, 0⟩ := by
  refine ⟨?_, rfl⟩
  intro h
  have := congrArg Quaternion.x h
  norm_num [Quaternion.default, Quaternion.identity] at this

/-- C9 (amended): the default `Quaternion` is `(1,0,0,0)` — a half-turn
about the x axis, whose Hamilton square is `−1 = (0,0,0,−1)` — and it
differs from the identity rotation `(0,0,0,1)`. -/
theorem quaternion_default_value :
    Quaternion.default = ⟨1, 0, 0, 0⟩ ∧
    Quaternion.hmul Quaternion.default Quaternion.default = ⟨0, 0, 0, -1⟩ ∧
    Quaternion.default ≠ Quaternion.identity := by
  refine ⟨rfl, ?_, ?_⟩
  · show Quaternion.hmul ⟨1, 0, 0, 0⟩ ⟨1, 0, 0, 0⟩ = _
    rw [Quaternion.hmul]
    norm_num
  · intro h
    have := congrArg Quaternion.w h
    norm_num [Quaternion.default, Quaternion.identity] at this

/-- Index-with-fallback equals clamped indexing on non-empty lists
(helper for the animated-rotation clamping proof). -/
theorem clampGet {α : Type} (vals : List α) (dflt : α) (frame : Nat) (h : vals ≠ []) :
    (vals.get? frame).getD ((vals.getLast?).getD dflt) =
      vals.getD (min frame (vals.length - 1)) dflt := by
  have hlen : 0 < vals.length := List.length_pos.2 h
  by_cases hf : frame < vals.length
  · rw [List.getD_eq_getElem?_getD, List.get?_eq_getElem?]
    rw [Nat.min_eq_left (by omega)]
    rw [List.getElem?_eq_getElem hf]
    simp
  · rw [List.getD_eq_getElem?_getD, List.get?_eq_getElem?, List.getLast?_eq_getElem?]
    rw [Nat.min_eq_right (by omega)]
    rw [List.getElem?_eq_none (by omega)]
    simp

/-- Index-or-default equals a range-guarded lookup (helper for the
animated-position proof). -/
theorem getDOrDefault {α : Type} (vals : List α) (dflt : α) (frame : Nat) :
    (vals.get? frame).getD dflt =
      if frame < vals.length then vals.getD frame dflt else dflt := by
  by_cases hf : frame < vals.length
  · rw [if_pos hf, List.getD_eq_getElem?_getD, List.get?_eq_getElem?]
  · rw [if_neg hf, List.get?_eq_getElem?, List.getElem?_eq_none (by omega)]
    rfl

/-- C6 (amended): for an animated rotation track with at least one
stored frame, `rotation(frame)` clamps the frame to `[0, len−1]` and
converts the stored Euler value; for an animated position track,
`position(frame)` returns the stored value for `frame < len` but
`Vector::default()` (the zero vector, not the last stored value) for
`frame ≥ len`; the constant rotation variants return their stored
quaternion and the constant position variant its decoded `Vector48` at
every frame. -/
theorem animation_track_indexing (sinF cosF : ℚ → ℚ) (a : Mdl.Animation) (frame : Nat) :
    (∀ vals, a.rotationData = .animated vals → vals ≠ [] →
      a.rotation sinF cosF frame =
        eulerToQuat sinF cosF (vals.getD (min frame (vals.length - 1)) RadianEuler.default)) ∧
    (∀ vals, a.positionData = .positionValues vals →
      a.position frame =
        if frame < vals.length then vals.getD frame Vector.default else Vector.default) ∧
    (∀ q, a.rotationData = .quaternion48 q → a.rotation sinF cosF frame = q) ∧
    (∀ q, a.rotationData = .quaternion64 q → a.rotation sinF cosF frame = q) ∧
    (∀ v, a.positionData = .vector48 v → a.position frame = v.toVector) := by
  refine ⟨?_, ?_, ?_, ?_, ?_⟩
  · intro vals hv hne
    rw [Mdl.Animation.rotation, hv, Mdl.RotationData.rotation]
    rw [clampGet vals RadianEuler.default frame hne]
  · intro vals hv
    rw [Mdl.Animation.position, hv, Mdl.PositionData.position]
    rw [getDOrDefault vals Vector.default frame]
  · intro q hv
    rw [Mdl.Animation.rotation, hv, Mdl.RotationData.rotation]
  · intro q hv
    rw [Mdl.Animation.rotation, hv, Mdl.RotationData.rotation]
  · intro v hv
    rw [Mdl.Animation.position, hv, Mdl.PositionData.position]

/-- C6 witness: the amended theorem applied to the concrete animation
with one stored rotation Euler `(1,0,0)` and one stored position
`(1,2,3)` at the out-of-range frame 5. -/
theorem animation_track_indexing_witness :
    Mdl.Animation.rotation (fun _ => 0) (fun _ => 0)
        ⟨0, 0, .animated [⟨1, 0, 0⟩], .positionValues [⟨1, 2, 3⟩]⟩ 5 =
      eulerToQuat (fun _ => 0) (fun _ => 0) ⟨1, 0, 0⟩ ∧
    Mdl.Animation.position ⟨0, 0, .animated [⟨1, 0, 0⟩], .positionValues [⟨1, 2, 3⟩]⟩ 5 =
      Vector.default := by
  have h := animation_track_indexing (fun _ => 0) (fun _ => 0)
    ⟨0, 0, .animated [⟨1, 0, 0⟩], .positionValues [⟨1, 2, 3⟩]⟩ 5
  constructor
  · have hr := h.1 [⟨1, 0, 0⟩] rfl (by simp)
    rw [hr]
    rfl
  · have hp := h.2.1 [⟨1, 2, 3⟩] rfl
    rw [hp]
    rfl

/-- C5 (amended): the fix-up pass of `Vvd::read` applies *every*
fix-up of the table, in table order, regardless of its `lod` field —
the code never reads `lod` — so every vertex of every fix-up's source
range `[from, to)` appears in the output vertex sequence. -/
theorem vvd_every_fixup_applied (d : Bytes) (r : Vvd.T)
    (fs : List Vvd.VertexFileFixup) (f : Vvd.VertexFileFixup) (sv : List Vvd.Vertex)
    (v : Vvd.Vertex)
    (h : Vvd.read d = .ok r) (hfix : r.header.hasFixups = true)
    (hfs : Vvd.fixupsOf d r.header = .ok fs)
    (hsv : Vvd.readSourceVertices d r.header = .ok sv)
    (hf : f ∈ fs) (hv : v ∈ (sv.drop f.fromIdx).take (f.toIdx - f.fromIdx)) :
    v ∈ r.vertices := by
  obtain ⟨sv', st', hhd, hsv', hst', hcase⟩ := vvdRead_ok h
  rw [hsv'] at hsv
  cases hsv
  cases hcase with
  | inl hc =>
    obtain ⟨hfix2, hap⟩ := hc
    obtain ⟨fs', hfs', hlen, hsum, hmem⟩ := applyFixups_spec hap
    rw [Vvd.fixupsOf] at hfs
    rw [hfs'] at hfs
    cases hfs
    exact (hmem f hf).2.2 v hv
  | inr hc => rw [hc.1] at hfix; cases hfix

/-- C5 witness: the amended theorem applied to `c5bytes`, whose single
fix-up has `lod = 5` while the requested LOD is 0: its source vertex
`c5v1` still reaches the output. -/
theorem vvd_every_fixup_applied_witness :
    Vvd.read c5bytes = .ok c5T ∧
    c5T.header.hasFixups = true ∧
    Vvd.fixupsOf c5bytes c5T.header = .ok [c5f] ∧
    Vvd.readSourceVertices c5bytes c5T.header = .ok [c5v1, c5v2] ∧
    c5f ∈ [c5f] ∧
    c5v1 ∈ (([c5v1, c5v2].drop c5f.fromIdx).take (c5f.toIdx - c5f.fromIdx)) ∧
    c5v1 ∈ c5T.vertices :=
  ⟨by decide, by decide, by decide, by decide, by decide, by decide,
    vvd_every_fixup_applied c5bytes c5T [c5f] c5f [c5v1, c5v2] c5v1
      (by decide) (by decide) (by decide) (by decide) (by decide) (by decide)⟩

/-- C5 counterexample: `Vvd::read` on `c5bytes` (requested LOD 0, one
fix-up with `lod = 5 > 0`) succeeds and the output vertex sequence is
the fix-up's full source range — not empty, as it would be if fix-ups
with `lod` above the requested LOD were ignored. -/
theorem vvd_high_lod_fixup_not_ignored_cex :
    Vvd.read c5bytes = .ok c5T ∧
    Vvd.fixupsOf c5bytes c5T.header = .ok [c5f] ∧
    c5f.lod = 5 ∧ ((0 : Int) < 5) ∧
    c5T.vertices = [c5v1, c5v2] ∧ c5T.vertices ≠ [] := by
  refine ⟨by decide, by decide, by decide, by decide, by decide, by decide⟩

/-- C7 (amended): parsed bone parent indices are *only* guaranteed to
lie in the `i32` range `[−2³¹, 2³¹−1]` (they are decoded by `toI32`
and never validated against the bone's own index); `mdlParents d`
lists the parents of a successfully parsed MDL, and out-of-list
indices fall back to `−1`. -/
theorem bone_parent_i32_range (d : Bytes) (i : Nat) :
    -(2 ^ 31) ≤ (mdlParents d).getD i (-1) ∧ (mdlParents d).getD i (-1) < 2 ^ 31 := by
  cases hm : Mdl.read d with
  | ok m =>
    rw [show mdlParents d = m.bones.map (fun b => b.parent) by simp only [mdlParents, hm]]
    obtain ⟨hd, hhd, hbones⟩ := mdlRead_ok_bones hm
    have hall : ∀ b ∈ m.bones, -(2 ^ 31) ≤ b.parent ∧ b.parent < 2 ^ 31 := by
      intro b hb
      obtain ⟨o, ho⟩ := readRelativeList_mem hbones b hb
      rw [exceptBind_eq_ok] at ho
      obtain ⟨de, hde, ho⟩ := ho
      rw [exceptBind_eq_ok] at ho
      obtain ⟨bh, hbh, ho⟩ := ho
      rw [boneRead_parent ho, (readPod_ok hbh).1]
      exact toI32_range _
    by_cases hi : i < (m.bones.map (fun b => b.parent)).length
    · rw [List.getD_eq_getElem?_getD, List.getElem?_eq_getElem hi]
      rw [Option.getD_some]
      rw [List.getElem_map]
      exact hall _ (List.getElem_mem _)
    · rw [List.getD_eq_getElem?_getD, List.getElem?_eq_none (by omega)]
      norm_num
  | err e =>
    rw [show mdlParents d = [] by simp only [mdlParents, hm]]
    refine ⟨?_, ?_⟩ <;> norm_num [List.getD]
  | panicked =>
    rw [show mdlParents d = [] by simp only [mdlParents, hm]]
    refine ⟨?_, ?_⟩ <;> norm_num [List.getD]

/-- C8 (amended): for every successful `Vvd::read`, tangents and
vertices have equal length; without fix-ups that length is
`lod_vertex_count[0] as usize`; with fix-ups it is
`Σ fixup.vertex_count` *only under the side condition* that each
fix-up has `0 ≤ source_vertex_id`, `0 ≤ vertex_count` and
`source_vertex_id + vertex_count ≤ i32::MAX` — otherwise
`saturating_add` clamps the copy range (see the counterexample). -/
theorem vvd_output_lengths (d : Bytes) (r : Vvd.T) (h : Vvd.read d = .ok r) :
    r.tangents.length = r.vertices.length ∧
    (r.header.hasFixups = false →
      r.vertices.length = usizeOfInt (r.header.lodVertexCount.getD 0 0)) ∧
    (∀ fs, r.header.hasFixups = true → Vvd.fixupsOf d r.header = .ok fs →
      (∀ f ∈ fs, 0 ≤ f.sourceVertexId ∧ 0 ≤ f.vertexCount ∧
        f.sourceVertexId + f.vertexCount ≤ 2 ^ 31 - 1) →
      (r.vertices.length : Int) = (fs.map (fun f => f.vertexCount)).sum) := by
  obtain ⟨sv, st, hhd, hsv, hst, hcase⟩ := vvdRead_ok h
  rw [Vvd.readSourceVertices, Vvd.Header.vertexIndexes] at hsv
  rw [Vvd.readSourceTangents, Vvd.Header.tangentIndexes] at hst
  by_cases h0 : (0 : Int) < r.header.lodCount
  case neg =>
    rw [if_neg h0] at hsv
    exact Except.noConfusion hsv
  rw [if_pos h0] at hsv
  rw [if_pos h0] at hst
  have hsvlen : sv.length = usizeOfInt (r.header.lodVertexCount.getD 0 0) := by
    rw [readRelativeList_length hsv]
    unfold indexRange
    rw [List.length_map, List.length_range]
    rfl
  have hstlen : st.length = sv.length := by
    rw [readRelativeList_length hsv, readRelativeList_length hst]
    unfold indexRange
    simp only [List.length_map, List.length_range]
  cases hcase with
  | inl hc =>
    obtain ⟨hfix, hap⟩ := hc
    obtain ⟨fs', hfs', hlen, hsum, hmem⟩ := applyFixups_spec hap
    refine ⟨hlen, ?_, ?_⟩
    · intro hf0; rw [hf0] at hfix; cases hfix
    · intro fs _ hfs hcond
      rw [Vvd.fixupsOf] at hfs
      rw [hfs'] at hfs
      cases hfs
      rw [hsum]
      rw [Nat.cast_list_sum]
      rw [List.map_map]
      refine congrArg List.sum (List.map_congr_left ?_)
      intro f hf
      obtain ⟨hc1, hc2, hc3⟩ := hcond f hf
      obtain ⟨hlo, hhi, _⟩ := hmem f hf
      have hsat : satAddI32 f.sourceVertexId f.vertexCount = f.sourceVertexId + f.vertexCount := by
        rw [satAddI32]
        omega
      have hto : f.toIdx = (f.sourceVertexId + f.vertexCount).toNat := by
        have he : (f.sourceVertexId + f.vertexCount) % 2 ^ 64 = f.sourceVertexId + f.vertexCount :=
          Int.emod_eq_of_lt (by omega) (by omega)
        rw [Vvd.VertexFileFixup.toIdx, hsat, usizeOfInt, he]
      have hfrom : f.fromIdx = f.sourceVertexId.toNat := by
        have he : f.sourceVertexId % 2 ^ 64 = f.sourceVertexId :=
          Int.emod_eq_of_lt (by omega) (by omega)
        rw [Vvd.VertexFileFixup.fromIdx, usizeOfInt, he]
      show ((f.toIdx - f.fromIdx : Nat) : Int) = f.vertexCount
      rw [hto, hfrom]
      omega
  | inr hc =>
    obtain ⟨hfix, hv, ht⟩ := hc
    refine ⟨by rw [hv, ht, hstlen], ?_, ?_⟩
    · intro _; rw [hv]; exact hsvlen
    · intro fs hfix2 _ _
      rw [hfix2] at hfix
      cases hfix

/-- C8 witness: the amended theorem applied to `c5bytes` (one fix-up
satisfying the side condition): both outputs have length 2. -/
theorem vvd_output_lengths_witness :
    Vvd.read c5bytes = .ok c5T ∧
    c5T.tangents.length = c5T.vertices.length :=
  ⟨by decide, (vvd_output_lengths c5bytes c5T (by decide)).1⟩

/-- C8 counterexample: `Vvd::read` succeeds on `c8giant`, whose single
fix-up has `source_vertex_id = 2147483645` and `vertex_count = 3`;
`saturating_add` clamps `to` at `i32::MAX = 2147483647`, so only 2
vertices are copied and `|vertices| = 2 ≠ 3 = Σ fixup.vertex_count`. -/
theorem vvd_length_saturation_cex :
    Vvd.read c8giant =
      .ok { header := c8header, vertices := List.replicate 2 c8v0,
            tangents := List.replicate 2 c8t0 } ∧
    c8header.hasFixups = true ∧
    Vvd.fixupsOf c8giant c8header = .ok [c8fixup] ∧
    ([c8fixup].map (fun f => f.vertexCount)).sum = 3 ∧
    (List.replicate 2 c8v0).length = 2 ∧ (2 : Int) ≠ 3 :=
  ⟨c8giant_read, rfl, c8_fixups, rfl, rfl, by decide⟩

/-- C10: the chained `FrameValues::get` lookup terminates on every
finite buffer, chain and frame index — with recursion depth bounded by
`d.length + index` (+1 for a zero-`total` entry node), witnessed by
agreement with the fuel-limited walk — and every failure is an `Eof`
or `OutOfBounds` error. -/
theorem frame_values_get_terminates (d : Bytes) (valid total index : Nat) (fuel : Nat)
    (hfuel : d.length + index + (if total = 0 then 1 else 0) < fuel) :
    Mdl.frameValuesGetFuel fuel d valid total index =
      some (Mdl.frameValuesGet d valid total index) ∧
    ∀ e, Mdl.frameValuesGet d valid total index = .error e →
      e = .eof 2 ∨ ∃ s off, e = .outOfBounds s off :=
  frameValuesGetFuel_adequate d valid total index fuel hfuel

/-- C10 witness: the theorem applied to the two-byte buffer `[255, 1]`
at `valid = 255`, `total = 1`, frame index 5, with fuel 8 above the
measure `2 + 5 + 0`. -/
theorem frame_values_get_terminates_witness :
    (([bqq 255, bqq 1] : Bytes).length + 5 + (if (1 : Nat) = 0 then 1 else 0) < 8) ∧
    (Mdl.frameValuesGetFuel 8 [bqq 255, bqq 1] 255 1 5 =
      some (Mdl.frameValuesGet [bqq 255, bqq 1] 255 1 5) ∧
    ∀ e, Mdl.frameValuesGet [bqq 255, bqq 1] 255 1 5 = .error e →
      e = .eof 2 ∨ ∃ s off, e = .outOfBounds s off) :=
  ⟨by decide, frame_values_get_terminates [bqq 255, bqq 1] 255 1 5 8 (by decide)⟩

/-- C10 counterexample (to the claimed *mechanism*): on the two-byte
buffer `[255, 1]` the node has `valid = 255`, so the wrapped next-node
offset `(255 + 1) as u8 * 2 = 0` advances **zero** bytes — with the
claimed "at least 2 bytes per step", a 2-byte buffer would allow at
most one chain step and `⌈2/2⌉ + 2 = 3` fuel would suffice, yet the
walk runs out of that fuel; it still terminates (after 6 steps) with
`Eof`, because the frame index, not the buffer, decreases. -/
theorem frame_values_no_min_advance_cex :
    Mdl.frameValuesGetFuel (2 / 2 + 2) [bqq 255, bqq 1] 255 1 5 = none ∧
    Mdl.frameValuesGet [bqq 255, bqq 1] 255 1 5 = .error (.eof 2) := by
  refine ⟨by decide, ?_⟩
  have h := (frameValuesGetFuel_adequate [bqq 255, bqq 1] 255 1 5 8 (by decide)).1
  have h2 : Mdl.frameValuesGetFuel 8 [bqq 255, bqq 1] 255 1 5 =
      some (.error (.eof 2)) := by
    decide
  rw [h2] at h
  exact Option.some_injective _ h.symm

end Vmdl
